import Mathlib

/-!
# Verification of the unpic-qcloud encode/decode/merge engine

A shallow embedding of the library's core (the newest revision of its single
source module: the one declaring `QCloudCosOptions` and returning
`pipelineSegments` from `extract`), together with proofs of the frozen claims
about it.

The embedding conventions:

* JavaScript strings are Lean `String`s; all token manipulation is done on
  their underlying `List Char`, with hand-rolled `splitOnChar` / `joinChar` /
  `breakAtChar` modelling `String.prototype.split`, `Array.prototype.join`
  and first-occurrence splitting.
* JavaScript numbers only ever carry integers in this code, so numeric fields
  are `Option Int`; `Number(...)` is modelled by `jsNum` on its signed
  decimal-integer fragment (the only fragment these functions feed it in the
  situations treated below), with `none` standing for `NaN`.
* The WHATWG `URL` class and `decodeURIComponent` are external collaborators
  of the library; they are modelled by `JSURL` / `parseURLString` (no ports,
  no userinfo, no path normalisation, which the recognised hostnames never
  use) and `decodePercent` (ASCII percent-sequences; a malformed sequence is
  `none`, which models the thrown `URIError`).
* Functions that can propagate that `URIError` return `Except Unit _`;
  `.error ()` models the throw.
* A TS optional field holds `none` both for an absent key and for a key
  explicitly set to `undefined`; in every code path below the two behave
  identically (the only constructs applied to them are `!== undefined`
  guards, truthiness tests and object spreads whose result is then read by
  those same guards).
-/

/-! ## List utilities: split, join, break -/

/-- Prepend a character to the first piece of a split (used to build
`splitOnChar`). -/
def consHead (a : Char) : List (List Char) → List (List Char)
  | [] => [[a]]
  | t :: ts => (a :: t) :: ts

/-- Model of JavaScript `s.split(c)` for a one-character separator, on the
character list. Always returns at least one (possibly empty) piece. -/
def splitOnChar (c : Char) : List Char → List (List Char)
  | [] => [[]]
  | a :: rest =>
    if a = c then [] :: splitOnChar c rest else consHead a (splitOnChar c rest)

/-- Model of JavaScript `parts.join(c)` for a one-character separator. -/
def joinChar (c : Char) : List (List Char) → List Char
  | [] => []
  | [p] => p
  | p :: ps => p ++ c :: joinChar c ps

/-- Split a character list at the first occurrence of `c`: the second
component starts with `c`, or is empty when `c` does not occur. -/
def breakAtChar (c : Char) : List Char → (List Char × List Char)
  | [] => ([], [])
  | a :: rest =>
    if a = c then ([], a :: rest)
    else
      let p := breakAtChar c rest
      (a :: p.1, p.2)

/-- `startsWithChars p l` holds when `p` is a prefix of `l`; model of
JavaScript `l.startsWith(p)`. -/
def startsWithChars : List Char → List Char → Bool
  | [], _ => true
  | _ :: _, [] => false
  | p :: ps, c :: cs => p = c && startsWithChars ps cs

theorem consHead_ne_nil (a : Char) (ps : List (List Char)) : consHead a ps ≠ [] := by
  cases ps <;> simp [consHead]

theorem consHead_append (a : Char) (ps qs : List (List Char)) (h : ps ≠ []) :
    consHead a (ps ++ qs) = consHead a ps ++ qs := by
  cases ps with
  | nil => exact absurd rfl h
  | cons t ts => simp [consHead]

theorem splitOnChar_cons (c a : Char) (rest : List Char) :
    splitOnChar c (a :: rest)
      = if a = c then [] :: splitOnChar c rest else consHead a (splitOnChar c rest) := rfl

theorem splitOnChar_ne_nil (c : Char) (l : List Char) : splitOnChar c l ≠ [] := by
  cases l with
  | nil => simp [splitOnChar]
  | cons a rest =>
    rw [splitOnChar_cons]
    split
    · simp
    · exact consHead_ne_nil a _

theorem splitOnChar_append_cons (c : Char) (l₁ l₂ : List Char) :
    splitOnChar c (l₁ ++ c :: l₂) = splitOnChar c l₁ ++ splitOnChar c l₂ := by
  induction l₁ with
  | nil => simp [splitOnChar]
  | cons a rest ih =>
    rw [List.cons_append, splitOnChar_cons, splitOnChar_cons, ih]
    split
    · simp
    · exact consHead_append a _ _ (splitOnChar_ne_nil c rest)

theorem splitOnChar_of_not_mem {c : Char} {l : List Char} (h : c ∉ l) :
    splitOnChar c l = [l] := by
  induction l with
  | nil => simp [splitOnChar]
  | cons a rest ih =>
    simp only [List.mem_cons, not_or] at h
    have hac : ¬ a = c := fun hh => h.1 hh.symm
    simp [splitOnChar_cons, hac, ih h.2, consHead]

theorem splitOnChar_joinChar (c : Char) (ps : List (List Char)) (hne : ps ≠ [])
    (hfree : ∀ p ∈ ps, c ∉ p) :
    splitOnChar c (joinChar c ps) = ps := by
  induction ps with
  | nil => exact absurd rfl hne
  | cons p rest ih =>
    cases rest with
    | nil => simp [joinChar, splitOnChar_of_not_mem (hfree p (by simp))]
    | cons q qs =>
      have hp : c ∉ p := hfree p (by simp)
      have hrest : ∀ r ∈ q :: qs, c ∉ r := fun r hr => hfree r (by simp [hr])
      calc splitOnChar c (p ++ c :: joinChar c (q :: qs))
          = splitOnChar c p ++ splitOnChar c (joinChar c (q :: qs)) :=
            splitOnChar_append_cons c p _
        _ = [p] ++ (q :: qs) := by
            rw [splitOnChar_of_not_mem hp, ih (by simp) hrest]
        _ = p :: q :: qs := rfl

theorem joinChar_ne_nil (c : Char) (p : List Char) (ps : List (List Char))
    (hp : p ≠ []) : joinChar c (p :: ps) ≠ [] := by
  cases ps with
  | nil => simpa [joinChar]
  | cons q qs => simp [joinChar, hp]

theorem takeWhile_append_all {p : Char → Bool} {l₁ l₂ : List Char}
    (h : ∀ a ∈ l₁, p a) :
    (l₁ ++ l₂).takeWhile p = l₁ ++ l₂.takeWhile p := by
  induction l₁ with
  | nil => simp
  | cons a rest ih =>
    have ha : p a := h a (by simp)
    simp only [List.cons_append, List.takeWhile_cons, ha]
    simp [ih fun b hb => h b (by simp [hb])]

theorem dropWhile_append_all {p : Char → Bool} {l₁ l₂ : List Char}
    (h : ∀ a ∈ l₁, p a) :
    (l₁ ++ l₂).dropWhile p = l₂.dropWhile p := by
  induction l₁ with
  | nil => simp
  | cons a rest ih =>
    have ha : p a := h a (by simp)
    simp only [List.cons_append, List.dropWhile_cons, ha]
    simp [ih fun b hb => h b (by simp [hb])]

/-! ## Decimal integers: JavaScript number-to-string and `Number(...)` -/

/-- The ASCII digit for a value below ten. -/
def digitChar (d : Nat) : Char := Char.ofNat (48 + d)

/-- Digit-by-digit worker for `natToChars`; the fuel (never less than the
value) only makes the recursion structural. -/
def natToCharsAux : Nat → Nat → List Char
  | 0, _ => []
  | _ + 1, 0 => []
  | fuel + 1, n => natToCharsAux fuel (n / 10) ++ [digitChar (n % 10)]

/-- Decimal representation of a natural number, most significant digit first:
the model of JavaScript number-to-string conversion on naturals. -/
def natToChars (n : Nat) : List Char :=
  if n = 0 then ['0'] else natToCharsAux n n

theorem natToCharsAux_eq_digits (fuel : Nat) :
    ∀ n, n ≤ fuel → natToCharsAux fuel n
      = ((Nat.digits 10 n).map digitChar).reverse := by
  induction fuel with
  | zero =>
    intro n hn
    interval_cases n
    simp [natToCharsAux]
  | succ f ih =>
    intro n hn
    cases n with
    | zero => simp [natToCharsAux]
    | succ m =>
      have hdig : Nat.digits 10 (m + 1)
          = (m + 1) % 10 :: Nat.digits 10 ((m + 1) / 10) :=
        Nat.digits_def' (by norm_num) (Nat.succ_pos m)
      have hdiv : (m + 1) / 10 ≤ f := by
        have := Nat.div_lt_self (Nat.succ_pos m) (by norm_num : 1 < 10)
        omega
      show natToCharsAux f ((m + 1) / 10) ++ [digitChar ((m + 1) % 10)] = _
      rw [ih _ hdiv, hdig]
      simp

theorem natToChars_eq_digits (n : Nat) :
    natToChars n = if n = 0 then ['0']
      else ((Nat.digits 10 n).map digitChar).reverse := by
  unfold natToChars
  split
  · rfl
  · exact natToCharsAux_eq_digits n n le_rfl

/-- Decimal representation of an integer: JavaScript `${n}`. -/
def intToChars (n : Int) : List Char :=
  if n < 0 then '-' :: natToChars n.natAbs else natToChars n.toNat

/-- Value of a digit string, most significant digit first. -/
def natOfChars (l : List Char) : Nat :=
  Nat.ofDigits 10 ((l.map fun c => c.toNat - 48).reverse)

/-- Signed branch of `jsNum`: a leading sign followed by digits. -/
def jsNumSign (l : List Char) : Option Int :=
  match l with
  | [] => none
  | c :: rest =>
    if c = '-' then
      if rest ≠ [] ∧ rest.all Char.isDigit then some (-(natOfChars rest : Int)) else none
    else if c = '+' then
      if rest ≠ [] ∧ rest.all Char.isDigit then some (natOfChars rest : Int) else none
    else none

/-- Model of JavaScript `Number(s)`, `NaN` modelled as `none`. It is exact
on two regions, the only ones any theorem below evaluates it on: the
signed decimal-integer fragment (`""` is `0`; an optional sign followed by
digits is the signed value, as `Number` returns), and strings containing a
printable ASCII character that can occur in no JavaScript numeric literal
(no decimal, exponent, hex/octal/binary, `Infinity` or whitespace form can
contain one), where `Number` and this model both give `NaN`. Between the
two regions (`"1.5"`, `"0x10"`, `"9e1"`, padded numerals) it returns
`none` where `Number` returns a number; `forcesNaN` below carves the
theorems' hypotheses away from that gap. -/
def jsNum (l : List Char) : Option Int :=
  if l = [] then some 0
  else if l.all Char.isDigit then some (natOfChars l)
  else jsNumSign l

theorem digitChar_isDigit {d : Nat} (h : d < 10) : (digitChar d).isDigit := by
  interval_cases d <;> decide

theorem val_digitChar {d : Nat} (h : d < 10) : (digitChar d).toNat - 48 = d := by
  interval_cases d <;> decide

theorem natToChars_all_digits (n : Nat) : ∀ c ∈ natToChars n, c.isDigit := by
  intro c hc
  rw [natToChars_eq_digits] at hc
  split at hc
  · simp at hc; subst hc; decide
  · simp only [List.mem_reverse, List.mem_map] at hc
    obtain ⟨d, hd, rfl⟩ := hc
    exact digitChar_isDigit (Nat.digits_lt_base (by norm_num) hd)

theorem natToChars_ne_nil (n : Nat) : natToChars n ≠ [] := by
  rw [natToChars_eq_digits]
  split
  · simp
  · simp [Nat.digits_ne_nil_iff_ne_zero, *]

theorem natOfChars_natToChars (n : Nat) : natOfChars (natToChars n) = n := by
  rw [natToChars_eq_digits]
  unfold natOfChars
  split
  · subst n; decide
  · rw [List.map_reverse, List.reverse_reverse, List.map_map]
    have hmap : (Nat.digits 10 n).map ((fun c => c.toNat - 48) ∘ digitChar)
        = Nat.digits 10 n := by
      conv_rhs => rw [← List.map_id (Nat.digits 10 n)]
      exact List.map_congr_left fun d hd =>
        val_digitChar (Nat.digits_lt_base (by norm_num) hd)
    rw [hmap, Nat.ofDigits_digits]

theorem jsNum_natToChars (n : Nat) : jsNum (natToChars n) = some (n : Int) := by
  unfold jsNum
  rw [if_neg (natToChars_ne_nil n),
      if_pos (List.all_eq_true.mpr (natToChars_all_digits n)),
      natOfChars_natToChars]

theorem jsNum_intToChars (n : Int) : jsNum (intToChars n) = some n := by
  unfold intToChars
  split
  · rename_i hneg
    have hdig : ∀ c ∈ natToChars n.natAbs, c.isDigit := natToChars_all_digits _
    have hnotall : ¬ (('-' :: natToChars n.natAbs).all Char.isDigit = true) := by
      simp [List.all_cons, Char.isDigit]
    have hc : natToChars n.natAbs ≠ []
        ∧ (natToChars n.natAbs).all Char.isDigit = true :=
      ⟨natToChars_ne_nil _, List.all_eq_true.mpr hdig⟩
    unfold jsNum
    rw [if_neg (by simp), if_neg hnotall]
    simp only [jsNumSign, if_true]
    rw [if_pos hc, natOfChars_natToChars]
    congr 1
    omega
  · rename_i hpos
    rw [jsNum_natToChars]
    congr 1
    omega

/-! ## Data model: `QCloudCosOperations` and `QCloudCosOptions` -/

/-- The `thumbnailMode` union type. -/
inductive ThumbMode
  | fit | cover | force | shrinkOnly | enlargeOnly
deriving DecidableEq, Repr

/-- The `flip` union type, `"vertical" | "horizontal"`. -/
inductive FlipDir
  | vertical | horizontal
deriving DecidableEq, Repr

/-- The `quality` field, `number | string` in TypeScript. -/
inductive QualityV
  | num (n : Int)
  | str (s : String)
deriving DecidableEq, Repr

/-- The operation set (`QCloudCosOperations`): every field optional, `none`
standing for an absent or `undefined` key. Field names and order follow the
interface declaration. -/
structure QCloudCosOperations where
  width : Option Int := none
  height : Option Int := none
  format : Option String := none
  quality : Option QualityV := none
  thumbnailMode : Option ThumbMode := none
  autoOrient : Option Bool := none
  rotate : Option Int := none
  flip : Option FlipDir := none
  iradius : Option Int := none
  rradius : Option Int := none
  rquality : Option Int := none
  lquality : Option Int := none
  ignoreError : Option Bool := none
deriving DecidableEq, Repr

/-- The defaults mapping (`QCloudCosOptions`): the subset of fields that can
be given global default values. -/
structure QCloudCosOptions where
  format : Option String := none
  thumbnailMode : Option ThumbMode := none
  quality : Option QualityV := none
  rquality : Option Int := none
  lquality : Option Int := none
  autoOrient : Option Bool := none
  ignoreError : Option Bool := none
deriving DecidableEq, Repr

/-! ## The URL model (external collaborator) -/

/-- Model of a parsed WHATWG `URL` restricted to the accessors this library
reads: `hostname`, `pathname`, `search` (empty or starting with a question
mark), `hash` (empty or starting with a hash mark), with `origin` computed
as scheme, separator and hostname (no userinfo and no explicit port, which
the recognised hostnames never carry). -/
structure JSURL where
  scheme : String
  hostname : String
  pathname : String
  search : String
  hash : String
deriving DecidableEq, Repr

def JSURL.origin (u : JSURL) : String := u.scheme ++ "://" ++ u.hostname

/-- `url.toString()` / `url.href`. -/
def JSURL.href (u : JSURL) : String :=
  u.origin ++ u.pathname ++ u.search ++ u.hash

/-- Locate the first `://` in a character list, returning the part before it
and the part after it. -/
def findSchemeSplit : List Char → Option (List Char × List Char)
  | [] => none
  | ':' :: '/' :: '/' :: rest => some ([], rest)
  | a :: rest =>
    match findSchemeSplit rest with
    | some p => some (a :: p.1, p.2)
    | none => none

/-- Model of `new URL(s)` (an external collaborator of the library) for
absolute URLs of the shape `scheme://host[/path][?query][#fragment]`:
`none` models the thrown `TypeError` on anything else. Userinfo, ports,
path normalisation and hostname case folding are outside the modelled
fragment; none of them occur in the inputs treated below. -/
def parseURLString (s : String) : Option JSURL :=
  match findSchemeSplit s.data with
  | none => none
  | some (scheme, rest) =>
    if scheme = [] ∨ ¬ scheme.all Char.isAlpha then none
    else
      let ph := breakAtChar '#' rest
      let pq := breakAtChar '?' ph.1
      let pp := breakAtChar '/' pq.1
      if pp.1 = [] then none
      else some ⟨String.mk scheme, String.mk pp.1,
        String.mk (if pp.2 = [] then ['/'] else pp.2),
        String.mk pq.2, String.mk ph.2⟩

/-- The `string | URL` argument type of the public functions. -/
inductive URLInput
  | str (s : String)
  | url (u : JSURL)
deriving DecidableEq, Repr

/-- `src.toString()` on a `string | URL` value. -/
def URLInput.toStr : URLInput → String
  | .str s => s
  | .url u => u.href

/-- The `typeof url === "string" ? new URL(url) : url` idiom shared by every
public function; `none` models the caught parse exception. -/
def parseInput : URLInput → Option JSURL
  | .str s => parseURLString s
  | .url u => some u

/-- Hexadecimal digit value. -/
def hexVal (c : Char) : Option Nat :=
  if '0' ≤ c ∧ c ≤ '9' then some (c.toNat - 48)
  else if 'a' ≤ c ∧ c ≤ 'f' then some (c.toNat - 87)
  else if 'A' ≤ c ∧ c ≤ 'F' then some (c.toNat - 55)
  else none

/-- Model of `decodeURIComponent` (an external collaborator) on ASCII
percent-sequences: a `%` followed by two hex digits whose value is below
128 decodes to that character, any other `%` use is `none` — which models
the thrown `URIError` (multi-byte UTF-8 sequences are outside the modelled
fragment and also map to `none`; they occur in none of the inputs treated
below). -/
def decodePercent : List Char → Option (List Char)
  | [] => some []
  | '%' :: rest =>
    match rest with
    | h1 :: h2 :: rest2 =>
      match hexVal h1, hexVal h2 with
      | some a, some b =>
        if a * 16 + b < 128 then
          match decodePercent rest2 with
          | some t => some (Char.ofNat (a * 16 + b) :: t)
          | none => none
        else none
      | _, _ => none
    | _ => none
  | c :: rest =>
    match decodePercent rest with
    | some t => some (c :: t)
    | none => none

/-! ## Hostname matcher -/

/-- Bucket-label character class `[a-zA-Z0-9-]`. -/
def bucketChar (c : Char) : Bool := c.isAlphanum || c = '-'

/-- Whole-label match for `[a-zA-Z0-9-]+-\d+`: the label must end in a dash
followed by one or more digits, preceded by a non-empty run of class
characters (the class contains both dash and digits, so this is exactly the
backtracking regex's language). -/
def matchBucket (l : List Char) : Bool :=
  let r := l.reverse
  let d := r.takeWhile Char.isDigit
  decide (d ≠ []) &&
    match r.drop d.length with
    | '-' :: rest => decide (rest ≠ []) && rest.all bucketChar
    | _ => false

/-- Whole-label match for `[a-z]+-[a-z0-9]+(?:-\d+)?`: since neither class
contains a dash, this is exactly a two- or three-way dash-split with the
classwise checks. -/
def matchRegion (l : List Char) : Bool :=
  match splitOnChar '-' l with
  | [p1, p2] =>
    decide (p1 ≠ []) && p1.all Char.isLower && decide (p2 ≠ [])
      && p2.all (fun c => c.isLower || c.isDigit)
  | [p1, p2, p3] =>
    decide (p1 ≠ []) && p1.all Char.isLower && decide (p2 ≠ [])
      && p2.all (fun c => c.isLower || c.isDigit)
      && decide (p3 ≠ []) && p3.all Char.isDigit
  | _ => false

/-- `COS_HOSTNAME_RE.test(hostname)`: the anchored regex
`^[a-zA-Z0-9-]+-\d+\.(?:cos|pic)\.[a-z]+-[a-z0-9]+(?:-\d+)?\.myqcloud\.com$`
compiled labelwise (every character class excludes the dot, so the regex
constrains exactly the five dot-separated labels). -/
def cosHostTest (hostname : String) : Bool :=
  match splitOnChar '.' hostname.data with
  | [b, e, r, m, c] =>
    matchBucket b && (e = "cos".data || e = "pic".data) && matchRegion r
      && m = "myqcloud".data && c = "com".data
  | _ => false

/-- `isCosUrl`: true when the (possibly still unparsed) URL points at a
Tencent Cloud COS object; parse failure yields `false`. -/
def isCosUrl (url : URLInput) : Bool :=
  match parseInput url with
  | none => false
  | some u => cosHostTest u.hostname

/-! ## Token parser: `parseImageMogr2` -/

/-- Deterministic compilation of the anchored-start regex `^(\d*)x(\d*)`:
leading digits, a literal `x`, following digits, and the remainder. Because
the digit class cannot match `x`, greedy maximal munch is the only possible
match, so this is exactly the regex's behaviour; the `!$`, `>$`, `<$`
variants are recovered by testing the remainder. -/
def matchWxH (l : List Char) : Option (List Char × List Char × List Char) :=
  match l.dropWhile Char.isDigit with
  | 'x' :: r2 => some (l.takeWhile Char.isDigit, r2.takeWhile Char.isDigit,
      r2.dropWhile Char.isDigit)
  | _ => none

/-- Set `width`/`height` from the two digit groups; an empty group is falsy
in `if (m[1]) ...` and leaves the field untouched. -/
def setWH (o : QCloudCosOperations) (d1 d2 : List Char) : QCloudCosOperations :=
  let o1 := if d1 ≠ [] then { o with width := some (natOfChars d1 : Int) } else o
  if d2 ≠ [] then { o1 with height := some (natOfChars d2 : Int) } else o1

/-- The `thumbnail` argument: the four regexes `^(\d*)x(\d*)!$`,
`^(\d*)x(\d*)>$`, `^(\d*)x(\d*)<$`, `^(\d*)x(\d*)` tried in that order. -/
def applyThumbnail (o : QCloudCosOperations) (arg : List Char) : QCloudCosOperations :=
  match matchWxH arg with
  | none => o
  | some (d1, d2, rem) =>
    if rem = ['!'] then { setWH o d1 d2 with thumbnailMode := some .force }
    else if rem = ['>'] then { setWH o d1 d2 with thumbnailMode := some .shrinkOnly }
    else if rem = ['<'] then { setWH o d1 d2 with thumbnailMode := some .enlargeOnly }
    else setWH o d1 d2

/-- The `crop` argument: `^(\d*)x(\d*)`, forcing `thumbnailMode` to cover. -/
def applyCrop (o : QCloudCosOperations) (arg : List Char) : QCloudCosOperations :=
  match matchWxH arg with
  | none => o
  | some (d1, d2, _) => { setWH o d1 d2 with thumbnailMode := some .cover }

def setIradius (o : QCloudCosOperations) (arg : List Char) : QCloudCosOperations :=
  match jsNum arg with
  | some n => { o with iradius := some n }
  | none => o

def setRradius (o : QCloudCosOperations) (arg : List Char) : QCloudCosOperations :=
  match jsNum arg with
  | some n => { o with rradius := some n }
  | none => o

def setRotate (o : QCloudCosOperations) (arg : List Char) : QCloudCosOperations :=
  match jsNum arg with
  | some n => { o with rotate := some n }
  | none => o

def setFlip (o : QCloudCosOperations) (arg : List Char) : QCloudCosOperations :=
  if arg = "vertical".data then { o with flip := some .vertical }
  else if arg = "horizontal".data then { o with flip := some .horizontal }
  else o

def setQuality (o : QCloudCosOperations) (arg : List Char) : QCloudCosOperations :=
  { o with quality := some (match jsNum arg with
      | some n => .num n
      | none => .str (String.mk arg)) }

def setRquality (o : QCloudCosOperations) (arg : List Char) : QCloudCosOperations :=
  match jsNum arg with
  | some n => { o with rquality := some n }
  | none => o

def setLquality (o : QCloudCosOperations) (arg : List Char) : QCloudCosOperations :=
  match jsNum arg with
  | some n => { o with lquality := some n }
  | none => o

/-- The `for (let i = 0; ...)` scan of `parseImageMogr2`, branch for branch
and in the source's branch order: a recognised keyword consumes its argument
slot (`i++`), `auto-orient` consumes nothing, `ignore-error` consumes a
following literal `1`, and anything else is skipped on its own. Every
iteration consumes at least one array slot, so the loop runs at most
`length`-many times; the fuel argument records that bound and only serves
to make the recursion structural. -/
def scanAux : Nat → List (List Char) → QCloudCosOperations → QCloudCosOperations
  | 0, _, o => o
  | _ + 1, [], o => o
  | fuel + 1, tok :: rest, o =>
    match rest with
    | [] =>
      if tok = "auto-orient".data then { o with autoOrient := some true }
      else if tok = "ignore-error".data then { o with ignoreError := some true }
      else o
    | next :: rest2 =>
      if tok = "thumbnail".data then scanAux fuel rest2 (applyThumbnail o next)
      else if tok = "crop".data then scanAux fuel rest2 (applyCrop o next)
      else if tok = "gravity".data then scanAux fuel rest2 o
      else if tok = "iradius".data then scanAux fuel rest2 (setIradius o next)
      else if tok = "rradius".data then scanAux fuel rest2 (setRradius o next)
      else if tok = "auto-orient".data then scanAux fuel rest { o with autoOrient := some true }
      else if tok = "rotate".data then scanAux fuel rest2 (setRotate o next)
      else if tok = "flip".data then scanAux fuel rest2 (setFlip o next)
      else if tok = "format".data then scanAux fuel rest2 { o with format := some (String.mk next) }
      else if tok = "quality".data then scanAux fuel rest2 (setQuality o next)
      else if tok = "rquality".data then scanAux fuel rest2 (setRquality o next)
      else if tok = "lquality".data then scanAux fuel rest2 (setLquality o next)
      else if tok = "ignore-error".data then
        if next = ['1'] then scanAux fuel rest2 { o with ignoreError := some true }
        else scanAux fuel rest { o with ignoreError := some true }
      else scanAux fuel rest o

/-- The token scan at its natural fuel. -/
def scanTokens (ts : List (List Char)) (o : QCloudCosOperations) :
    QCloudCosOperations :=
  scanAux ts.length ts o

/-- `segment.replace(/^imageMogr2\/?/, "")`: strip the ten-character
namespace keyword and at most one following slash. -/
def stripMogr (l : List Char) : List Char :=
  if startsWithChars "imageMogr2".data l then
    match l.drop 10 with
    | [] => []
    | c :: t => if c = '/' then t else c :: t
  else l

/-- `parseImageMogr2` on the character list. -/
def parseChars (l : List Char) : QCloudCosOperations :=
  let stripped := stripMogr l
  if stripped = [] then {} else scanTokens (splitOnChar '/' stripped) {}

/-- `parseImageMogr2(segment)`: decode one dialect segment. -/
def parseImageMogr2 (segment : String) : QCloudCosOperations :=
  parseChars segment.data

/-! ## Token serializer: `buildImageMogr2` -/

/-- The `${w}x${h}` interpolation with absent dimensions as empty strings. -/
def wxhChars (o : QCloudCosOperations) : List Char :=
  (match o.width with | some w => intToChars w | none => [])
    ++ 'x' :: (match o.height with | some h => intToChars h | none => [])

def flipChars : FlipDir → List Char
  | .vertical => "vertical".data
  | .horizontal => "horizontal".data

def qualityChars : QualityV → List Char
  | .num n => intToChars n
  | .str s => s.data

/-- The resize/crop part: emitted when `width` or `height` is present, with
the sub-token chosen by `thumbnailMode` (defaulting to fit). -/
def resizePart (o : QCloudCosOperations) : List (List Char) :=
  if o.width.isSome ∨ o.height.isSome then
    [match o.thumbnailMode.getD .fit with
     | .cover => "crop".data ++ '/' :: wxhChars o
     | .force => "thumbnail".data ++ '/' :: (wxhChars o ++ ['!'])
     | .shrinkOnly => "thumbnail".data ++ '/' :: (wxhChars o ++ ['>'])
     | .enlargeOnly => "thumbnail".data ++ '/' :: (wxhChars o ++ ['<'])
     | .fit => "thumbnail".data ++ '/' :: wxhChars o]
  else []

/-- The `parts` array of `buildImageMogr2`, push for push in source order.
The boolean fields are tested for truthiness (`if (ops.autoOrient)`), the
others for presence (`!== undefined && !== null`); `flip` and `format` are
truthiness-tested strings, so an empty `format` is also skipped. -/
def buildParts (o : QCloudCosOperations) : List (List Char) :=
  resizePart o
    ++ (match o.iradius with
        | some n => ["iradius".data ++ '/' :: intToChars n] | none => [])
    ++ (match o.rradius with
        | some n => ["rradius".data ++ '/' :: intToChars n] | none => [])
    ++ (if o.autoOrient = some true then ["auto-orient".data] else [])
    ++ (match o.rotate with
        | some n => ["rotate".data ++ '/' :: intToChars n] | none => [])
    ++ (match o.flip with
        | some f => ["flip".data ++ '/' :: flipChars f] | none => [])
    ++ (match o.format with
        | some f => if f = "" then [] else ["format".data ++ '/' :: f.data]
        | none => [])
    ++ (match o.quality with
        | some q => ["quality".data ++ '/' :: qualityChars q] | none => [])
    ++ (match o.rquality with
        | some n => ["rquality".data ++ '/' :: intToChars n] | none => [])
    ++ (match o.lquality with
        | some n => ["lquality".data ++ '/' :: intToChars n] | none => [])
    ++ (if o.ignoreError = some true then ["ignore-error".data ++ '/' :: ['1']] else [])

/-- `buildImageMogr2(ops)`: empty string when no part was pushed, otherwise
the namespace keyword, a slash and the slash-joined parts. -/
def buildImageMogr2 (o : QCloudCosOperations) : String :=
  match buildParts o with
  | [] => ""
  | ps => String.mk ("imageMogr2/".data ++ joinChar '/' ps)

/-! ## `extract` -/

/-- The result record of `extract` (with `options` always empty, reserved). -/
structure ExtractResult where
  src : String
  operations : QCloudCosOperations
  options : QCloudCosOptions
  pipelineSegments : List String
deriving DecidableEq, Repr

/-- The object spread `{ ...a, ...b }` on two operation sets: for every key,
`b`'s value when `b` has the key, otherwise `a`'s — field-by-field, never
whole-object replacement (the parser only ever stores defined values, so
spread and per-field overlay agree). -/
def mergeOps (a b : QCloudCosOperations) : QCloudCosOperations :=
  ⟨b.width <|> a.width, b.height <|> a.height, b.format <|> a.format,
   b.quality <|> a.quality, b.thumbnailMode <|> a.thumbnailMode,
   b.autoOrient <|> a.autoOrient, b.rotate <|> a.rotate, b.flip <|> a.flip,
   b.iradius <|> a.iradius, b.rradius <|> a.rradius,
   b.rquality <|> a.rquality, b.lquality <|> a.lquality,
   b.ignoreError <|> a.ignoreError⟩

/-- A segment is dialect-owned when it starts with the namespace keyword:
`seg.startsWith("imageMogr2")`. -/
def isMogrSeg (seg : List Char) : Bool := startsWithChars "imageMogr2".data seg

/-- The `for (const seg of segments)` loop of `extract`, accumulating the
merged operations, the foreign segments in order, and the
has-dialect-segment flag. -/
def extractFoldAux :
    List (List Char) → QCloudCosOperations × List String × Bool →
      QCloudCosOperations × List String × Bool
  | [], acc => acc
  | seg :: rest, acc =>
    extractFoldAux rest
      (if isMogrSeg seg then (mergeOps acc.1 (parseChars seg), acc.2.1, true)
       else (acc.1, acc.2.1 ++ [String.mk seg], acc.2.2))

/-- `extract(url)`: `.ok none` models the `null` returns, `.error ()` models
the `URIError` thrown by `decodeURIComponent` on a malformed query. -/
def extract (url : URLInput) : Except Unit (Option ExtractResult) :=
  match parseInput url with
  | none => .ok none
  | some u =>
    if ¬ cosHostTest u.hostname then .ok none
    else
      match decodePercent (u.search.data.drop 1) with
      | none => .error ()
      | some q =>
        if q = [] then .ok none
        else
          let acc := extractFoldAux (splitOnChar '|' q) ({}, [], false)
          if ¬ acc.2.2 ∧ acc.2.1 = [] then .ok none
          else .ok (some ⟨u.origin ++ u.pathname, acc.1, {}, acc.2.1⟩)

/-! ## `generate` -/

/-- The object spread `{ ...options, ...operations }` in `generate`: options
provide per-field defaults for the seven option fields, explicit operations
always win. -/
def spreadOptsOps (options : Option QCloudCosOptions)
    (o : QCloudCosOperations) : QCloudCosOperations :=
  match options with
  | none => o
  | some d =>
    ⟨o.width, o.height, o.format <|> d.format, o.quality <|> d.quality,
     o.thumbnailMode <|> d.thumbnailMode, o.autoOrient <|> d.autoOrient,
     o.rotate, o.flip, o.iradius, o.rradius, o.rquality <|> d.rquality,
     o.lquality <|> d.lquality, o.ignoreError <|> d.ignoreError⟩

/-- `allSegments.join("|")`. -/
def joinPipe (segs : List String) : String :=
  String.mk (joinChar '|' (segs.map String.data))

/-- `generate(src, operations, options?, pipelineSegments?)`: pass the input
through unchanged when it does not parse or is not a COS URL; otherwise
rebuild origin + pathname, serialize the options-overlaid operations, and
join the dialect segment (when non-empty) with the supplied pipeline
segments. -/
def generate (src : URLInput) (operations : QCloudCosOperations)
    (options : Option QCloudCosOptions)
    (pipelineSegments : Option (List String)) : String :=
  match parseInput src with
  | none => src.toStr
  | some u =>
    if ¬ cosHostTest u.hostname then src.toStr
    else
      let baseUrl := u.origin ++ u.pathname
      let processing := buildImageMogr2 (spreadOptsOps options operations)
      let allSegments :=
        (if processing = "" then [] else [processing])
          ++ (match pipelineSegments with | some l => l | none => [])
      if allSegments = [] then baseUrl
      else baseUrl ++ "?" ++ joinPipe allSegments

/-! ## `transform` -/

/-- One conditional override of `transform`'s merge block:
`if (operations.f !== undefined) merged.f = operations.f`. -/
def ovWidth (v : QCloudCosOperations) (m : QCloudCosOperations) : QCloudCosOperations :=
  match v.width with | some w => { m with width := some w } | none => m

def ovHeight (v : QCloudCosOperations) (m : QCloudCosOperations) : QCloudCosOperations :=
  match v.height with | some h => { m with height := some h } | none => m

def ovThumbnailMode (v : QCloudCosOperations) (m : QCloudCosOperations) : QCloudCosOperations :=
  match v.thumbnailMode with | some t => { m with thumbnailMode := some t } | none => m

def ovFormat (v : QCloudCosOperations) (m : QCloudCosOperations) : QCloudCosOperations :=
  match v.format with | some f => { m with format := some f } | none => m

def ovQuality (v : QCloudCosOperations) (m : QCloudCosOperations) : QCloudCosOperations :=
  match v.quality with | some q => { m with quality := some q } | none => m

def ovRquality (v : QCloudCosOperations) (m : QCloudCosOperations) : QCloudCosOperations :=
  match v.rquality with | some q => { m with rquality := some q } | none => m

def ovLquality (v : QCloudCosOperations) (m : QCloudCosOperations) : QCloudCosOperations :=
  match v.lquality with | some q => { m with lquality := some q } | none => m

def ovAutoOrient (v : QCloudCosOperations) (m : QCloudCosOperations) : QCloudCosOperations :=
  match v.autoOrient with | some b => { m with autoOrient := some b } | none => m

def ovRotate (v : QCloudCosOperations) (m : QCloudCosOperations) : QCloudCosOperations :=
  match v.rotate with | some r => { m with rotate := some r } | none => m

def ovFlip (v : QCloudCosOperations) (m : QCloudCosOperations) : QCloudCosOperations :=
  match v.flip with | some f => { m with flip := some f } | none => m

def ovIradius (v : QCloudCosOperations) (m : QCloudCosOperations) : QCloudCosOperations :=
  match v.iradius with | some r => { m with iradius := some r } | none => m

def ovRradius (v : QCloudCosOperations) (m : QCloudCosOperations) : QCloudCosOperations :=
  match v.rradius with | some r => { m with rradius := some r } | none => m

def ovIgnoreError (v : QCloudCosOperations) (m : QCloudCosOperations) : QCloudCosOperations :=
  match v.ignoreError with | some b => { m with ignoreError := some b } | none => m

/-- The merge block of `transform`: start from `{ ...options, ...existing }`,
then apply the thirteen conditional overrides in source order. -/
def transformMerge (options : Option QCloudCosOptions)
    (existing v : QCloudCosOperations) : QCloudCosOperations :=
  ovIgnoreError v (ovRradius v (ovIradius v (ovFlip v (ovRotate v
    (ovAutoOrient v (ovLquality v (ovRquality v (ovQuality v (ovFormat v
      (ovThumbnailMode v (ovHeight v (ovWidth v
        (spreadOptsOps options existing)))))))))))))

/-- `transform(src, operations, options?)`: extraction failure (`null`)
delegates to `generate` on the original input; otherwise the merged set is
generated against the extracted base `src` together with the extracted
pipeline segments. A `URIError` from extraction propagates. -/
def transform (src : URLInput) (operations : QCloudCosOperations)
    (options : Option QCloudCosOptions) : Except Unit String :=
  match extract src with
  | .error e => .error e
  | .ok none => .ok (generate src operations options none)
  | .ok (some base) =>
    .ok (generate (.str base.src)
      (transformMerge options base.operations operations) none
      (some base.pipelineSegments))

/-! ## Helper lemmas on the merge combinators -/

theorem ovWidth_eq (v m : QCloudCosOperations) :
    ovWidth v m = { m with width := v.width <|> m.width } := by
  cases h : v.width <;> simp [ovWidth, h]

theorem ovHeight_eq (v m : QCloudCosOperations) :
    ovHeight v m = { m with height := v.height <|> m.height } := by
  cases h : v.height <;> simp [ovHeight, h]

theorem ovThumbnailMode_eq (v m : QCloudCosOperations) :
    ovThumbnailMode v m = { m with thumbnailMode := v.thumbnailMode <|> m.thumbnailMode } := by
  cases h : v.thumbnailMode <;> simp [ovThumbnailMode, h]

theorem ovFormat_eq (v m : QCloudCosOperations) :
    ovFormat v m = { m with format := v.format <|> m.format } := by
  cases h : v.format <;> simp [ovFormat, h]

theorem ovQuality_eq (v m : QCloudCosOperations) :
    ovQuality v m = { m with quality := v.quality <|> m.quality } := by
  cases h : v.quality <;> simp [ovQuality, h]

theorem ovRquality_eq (v m : QCloudCosOperations) :
    ovRquality v m = { m with rquality := v.rquality <|> m.rquality } := by
  cases h : v.rquality <;> simp [ovRquality, h]

theorem ovLquality_eq (v m : QCloudCosOperations) :
    ovLquality v m = { m with lquality := v.lquality <|> m.lquality } := by
  cases h : v.lquality <;> simp [ovLquality, h]

theorem ovAutoOrient_eq (v m : QCloudCosOperations) :
    ovAutoOrient v m = { m with autoOrient := v.autoOrient <|> m.autoOrient } := by
  cases h : v.autoOrient <;> simp [ovAutoOrient, h]

theorem ovRotate_eq (v m : QCloudCosOperations) :
    ovRotate v m = { m with rotate := v.rotate <|> m.rotate } := by
  cases h : v.rotate <;> simp [ovRotate, h]

theorem ovFlip_eq (v m : QCloudCosOperations) :
    ovFlip v m = { m with flip := v.flip <|> m.flip } := by
  cases h : v.flip <;> simp [ovFlip, h]

theorem ovIradius_eq (v m : QCloudCosOperations) :
    ovIradius v m = { m with iradius := v.iradius <|> m.iradius } := by
  cases h : v.iradius <;> simp [ovIradius, h]

theorem ovRradius_eq (v m : QCloudCosOperations) :
    ovRradius v m = { m with rradius := v.rradius <|> m.rradius } := by
  cases h : v.rradius <;> simp [ovRradius, h]

theorem ovIgnoreError_eq (v m : QCloudCosOperations) :
    ovIgnoreError v m = { m with ignoreError := v.ignoreError <|> m.ignoreError } := by
  cases h : v.ignoreError <;> simp [ovIgnoreError, h]

theorem spreadOptsOps_none (o : QCloudCosOperations) :
    spreadOptsOps none o = o := rfl

/-- The merge block of `transform`, computed fieldwise: each field is the
override when present, else the existing value, else the default. -/
theorem transformMerge_fields (d : QCloudCosOptions)
    (e v : QCloudCosOperations) :
    transformMerge (some d) e v =
      ⟨v.width <|> e.width,
       v.height <|> e.height,
       v.format <|> (e.format <|> d.format),
       v.quality <|> (e.quality <|> d.quality),
       v.thumbnailMode <|> (e.thumbnailMode <|> d.thumbnailMode),
       v.autoOrient <|> (e.autoOrient <|> d.autoOrient),
       v.rotate <|> e.rotate,
       v.flip <|> e.flip,
       v.iradius <|> e.iradius,
       v.rradius <|> e.rradius,
       v.rquality <|> (e.rquality <|> d.rquality),
       v.lquality <|> (e.lquality <|> d.lquality),
       v.ignoreError <|> (e.ignoreError <|> d.ignoreError)⟩ := by
  simp only [transformMerge, spreadOptsOps, ovWidth_eq, ovHeight_eq,
    ovThumbnailMode_eq, ovFormat_eq, ovQuality_eq, ovRquality_eq,
    ovLquality_eq, ovAutoOrient_eq, ovRotate_eq, ovFlip_eq, ovIradius_eq,
    ovRradius_eq, ovIgnoreError_eq]

/-- Same computation without defaults (`options` absent). -/
theorem transformMerge_fields_none (e v : QCloudCosOperations) :
    transformMerge none e v =
      ⟨v.width <|> e.width, v.height <|> e.height, v.format <|> e.format,
       v.quality <|> e.quality, v.thumbnailMode <|> e.thumbnailMode,
       v.autoOrient <|> e.autoOrient, v.rotate <|> e.rotate,
       v.flip <|> e.flip, v.iradius <|> e.iradius, v.rradius <|> e.rradius,
       v.rquality <|> e.rquality, v.lquality <|> e.lquality,
       v.ignoreError <|> e.ignoreError⟩ := by
  simp only [transformMerge, spreadOptsOps_none, ovWidth_eq, ovHeight_eq,
    ovThumbnailMode_eq, ovFormat_eq, ovQuality_eq, ovRquality_eq,
    ovLquality_eq, ovAutoOrient_eq, ovRotate_eq, ovFlip_eq, ovIradius_eq,
    ovRradius_eq, ovIgnoreError_eq]

/-! ## Structural lemmas on `extract` and `transform` -/

theorem extract_non_cos (input : URLInput)
    (h : ∀ u, parseInput input = some u → cosHostTest u.hostname = false) :
    extract input = .ok none := by
  unfold extract
  cases hp : parseInput input with
  | none => rfl
  | some u => simp [h u hp]

theorem transform_of_extract_some (input : URLInput)
    (v : QCloudCosOperations) (d : Option QCloudCosOptions)
    (r : ExtractResult) (h : extract input = .ok (some r)) :
    transform input v d
      = .ok (generate (.str r.src) (transformMerge d r.operations v) none
          (some r.pipelineSegments)) := by
  unfold transform
  rw [h]

theorem transform_of_extract_none (input : URLInput)
    (v : QCloudCosOperations) (d : Option QCloudCosOptions)
    (h : extract input = .ok none) :
    transform input v d = .ok (generate input v d none) := by
  unfold transform
  rw [h]

/-- `generate` on a parsed, hostname-matching input. -/
theorem generate_cos (src : URLInput) (u : JSURL)
    (ops : QCloudCosOperations) (opts : Option QCloudCosOptions)
    (segs : Option (List String))
    (hp : parseInput src = some u) (hcos : cosHostTest u.hostname = true) :
    generate src ops opts segs =
      (if ((if buildImageMogr2 (spreadOptsOps opts ops) = "" then []
            else [buildImageMogr2 (spreadOptsOps opts ops)])
          ++ (match segs with | some l => l | none => [])) = [] then
        u.origin ++ u.pathname
      else u.origin ++ u.pathname ++ "?"
        ++ joinPipe ((if buildImageMogr2 (spreadOptsOps opts ops) = "" then []
            else [buildImageMogr2 (spreadOptsOps opts ops)])
          ++ (match segs with | some l => l | none => []))) := by
  unfold generate
  rw [hp]
  simp [hcos]

/-- C6: non-COS pass-through. When the input fails to parse, or parses to a
URL whose hostname does not match the provider pattern, `generate` returns
the input stringified unchanged, for every operation set, options object and
pipeline-segment list, and `transform` returns the same string. -/
theorem nonCos_passthrough (input : URLInput) (ops v : QCloudCosOperations)
    (opts d : Option QCloudCosOptions) (segs : Option (List String))
    (h : ∀ u, parseInput input = some u → cosHostTest u.hostname = false) :
    generate input ops opts segs = input.toStr
      ∧ transform input v d = .ok input.toStr := by
  have hgen : ∀ (ops' : QCloudCosOperations) (opts' : Option QCloudCosOptions)
      (segs' : Option (List String)),
      generate input ops' opts' segs' = input.toStr := by
    intro ops' opts' segs'
    unfold generate
    cases hp : parseInput input with
    | none => rfl
    | some u => simp [h u hp]
  refine ⟨hgen ops opts segs, ?_⟩
  rw [transform_of_extract_none input v d (extract_non_cos input h), hgen]

/-- C6 witness: a non-matching host passes through `generate` and
`transform` unchanged. -/
theorem nonCos_passthrough_witness :
    generate (.str "https://example.com/photo.jpg") { width := some 10 }
        none none = "https://example.com/photo.jpg"
      ∧ transform (.str "https://example.com/photo.jpg") { width := some 10 }
        none = .ok "https://example.com/photo.jpg" :=
  nonCos_passthrough (.str "https://example.com/photo.jpg")
    { width := some 10 } { width := some 10 } none none none
    (by
      intro u hu
      have hpu : parseInput (.str "https://example.com/photo.jpg")
          = some (⟨"https", "example.com", "/photo.jpg", "", ""⟩ : JSURL) := by
        decide
      rw [hpu] at hu
      rw [← Option.some.inj hu]
      decide)

/-- C9: an operation set whose only present field is `thumbnailMode`
serializes to the empty string — the mode alone produces no resize token —
and `generate` on a COS URL with that set and no pipeline segments returns
the bare base URL with no query. -/
theorem thumbnailMode_alone_empty (m : ThumbMode) (u : JSURL)
    (hcos : cosHostTest u.hostname = true) :
    buildImageMogr2 { thumbnailMode := some m } = ""
      ∧ generate (.url u) { thumbnailMode := some m } none none
        = u.origin ++ u.pathname := by
  have hb : buildImageMogr2 ({ thumbnailMode := some m } : QCloudCosOperations) = "" := by
    cases m <;> rfl
  refine ⟨hb, ?_⟩
  rw [generate_cos (.url u) u _ none none rfl hcos, spreadOptsOps_none, hb]
  simp

/-- C9 witness at a concrete COS URL and the cover mode. -/
theorem thumbnailMode_alone_empty_witness :
    buildImageMogr2 { thumbnailMode := some ThumbMode.cover } = ""
      ∧ generate
          (.url ⟨"https", "examplebucket-1250000000.cos.ap-beijing.myqcloud.com",
            "/photo.jpg", "", ""⟩)
          { thumbnailMode := some ThumbMode.cover } none none
        = "https://examplebucket-1250000000.cos.ap-beijing.myqcloud.com/photo.jpg" :=
  thumbnailMode_alone_empty ThumbMode.cover
    ⟨"https", "examplebucket-1250000000.cos.ap-beijing.myqcloud.com",
      "/photo.jpg", "", ""⟩ (by decide)

/-! ## C5: error behaviour -/

/-- The one condition under which the engine raises: the input parses, the
hostname matches, and percent-decoding of the query fails. -/
def badQueryB (input : URLInput) : Bool :=
  match parseInput input with
  | none => false
  | some u => cosHostTest u.hostname && (decodePercent (u.search.data.drop 1)).isNone

/-- `extract` on a parsed, hostname-matching input. -/
theorem extract_cos (input : URLInput) (u : JSURL)
    (hp : parseInput input = some u) (hcos : cosHostTest u.hostname = true) :
    extract input =
      match decodePercent (u.search.data.drop 1) with
      | none => .error ()
      | some q =>
        if q = [] then .ok none
        else
          let acc := extractFoldAux (splitOnChar '|' q) ({}, [], false)
          if ¬ acc.2.2 ∧ acc.2.1 = [] then .ok none
          else .ok (some ⟨u.origin ++ u.pathname, acc.1, {}, acc.2.1⟩) := by
  unfold extract
  rw [hp]
  simp [hcos]

theorem extract_error_iff (input : URLInput) :
    extract input = .error () ↔ badQueryB input = true := by
  unfold badQueryB
  cases hp : parseInput input with
  | none =>
    have hex : extract input = .ok none := by
      unfold extract
      rw [hp]
    simp [hex]
  | some u =>
    cases hcos : cosHostTest u.hostname with
    | false =>
      have hex : extract input = .ok none := by
        unfold extract
        rw [hp]
        simp [hcos]
      simp [hex, hcos]
    | true =>
      have hr : (match some u with
          | none => false
          | some u => cosHostTest u.hostname
              && (decodePercent (u.search.data.drop 1)).isNone)
          = (cosHostTest u.hostname
              && (decodePercent (u.search.data.drop 1)).isNone) := rfl
      rw [extract_cos input u hp hcos, hr, hcos, Bool.true_and]
      cases hd : decodePercent (u.search.data.drop 1) with
      | none =>
        simp only [hd]
        simp
      | some q =>
        simp only [hd]
        constructor
        · intro h
          split at h
          · exact absurd h (by simp)
          · split at h
            · exact absurd h (by simp)
            · exact absurd h (by simp)
        · intro h
          simp at h

set_option maxHeartbeats 1000000 in
/-- C5 counterexample: the claim says no public function ever raises, but
`extract` (and therefore `transform`) propagates the `URIError` thrown by
`decodeURIComponent` on a COS URL whose query contains a malformed
percent-sequence — the query `?%` survives URL parsing verbatim and then
fails to decode. -/
theorem extract_raises_on_bad_percent :
    extract (.str "https://b-1.cos.ap-beijing.myqcloud.com/p.jpg?%")
        = .error ()
      ∧ transform (.str "https://b-1.cos.ap-beijing.myqcloud.com/p.jpg?%")
        {} none = .error () := by
  constructor <;> rfl

set_option maxHeartbeats 1000000 in
/-- C5 amended: every public function returns a defined value, and the only
raising behaviour is the `URIError` propagated by `extract` and `transform`
when the COS-matching URL's query fails percent-decoding; structural
rejection surfaces as a `.ok none` sentinel from `extract` and as
pass-through of the stringified input from `generate` and `transform`. -/
theorem total_except_uri_error (input : URLInput)
    (v ops : QCloudCosOperations) (d opts : Option QCloudCosOptions)
    (segs : Option (List String)) :
    (extract input = .error () ↔ badQueryB input = true)
      ∧ (transform input v d = .error () ↔ badQueryB input = true)
      ∧ (parseInput input = none →
          extract input = .ok none
            ∧ generate input ops opts segs = input.toStr
            ∧ transform input v d = .ok input.toStr) := by
  refine ⟨extract_error_iff input, ?_, ?_⟩
  · unfold transform
    cases he : extract input with
    | error e =>
      cases e
      simpa using (extract_error_iff input).mp he
    | ok r =>
      have hne : ¬ badQueryB input = true := by
        intro hb
        have := (extract_error_iff input).mpr hb
        rw [he] at this
        exact absurd this (by simp)
      cases r <;> simp [hne]
  · intro hp
    have hnc : ∀ u, parseInput input = some u → cosHostTest u.hostname = false := by
      intro u hu
      rw [hp] at hu
      exact absurd hu (by simp)
    have hex : extract input = .ok none := extract_non_cos input hnc
    have hgen : generate input ops opts segs = input.toStr := by
      unfold generate
      rw [hp]
    refine ⟨hex, hgen, ?_⟩
    have hgen2 : generate input v d none = input.toStr := by
      unfold generate
      rw [hp]
    rw [transform_of_extract_none input v d hex, hgen2]

set_option maxHeartbeats 1000000 in
/-- Witness for the amended C5 at the concrete malformed input. -/
theorem total_except_uri_error_witness :
    extract (.str "https://b-1.cos.ap-beijing.myqcloud.com/p.jpg?%") = .error () :=
  (total_except_uri_error
      (.str "https://b-1.cos.ap-beijing.myqcloud.com/p.jpg?%")
      {} {} none none none).1.mpr (by rfl)

/-! ## C8: prefix stripping without a slash -/

theorem parseChars_eqn (l : List Char) :
    parseChars l = if stripMogr l = [] then {}
      else scanTokens (splitOnChar '/' (stripMogr l)) {} := rfl

theorem stripMogr_prefix_cons (c : Char) (t : List Char) :
    stripMogr ("imageMogr2".data ++ c :: t) = if c = '/' then t else c :: t := rfl

theorem stripMogr_prefix_slash (l : List Char) :
    stripMogr ("imageMogr2".data ++ '/' :: l) = l := rfl

/-- A leading empty token matches no keyword branch and is skipped without
consuming anything. -/
theorem scanTokens_nil_token (ts : List (List Char)) (o : QCloudCosOperations) :
    scanTokens ([] :: ts) o = scanTokens ts o := by
  cases ts <;> rfl

theorem parseChars_prefix (l : List Char) :
    parseChars ("imageMogr2".data ++ l)
      = parseChars ("imageMogr2".data ++ '/' :: l) := by
  cases l with
  | nil => rfl
  | cons c t =>
    rw [parseChars_eqn, parseChars_eqn, stripMogr_prefix_cons,
      stripMogr_prefix_slash]
    by_cases hc : c = '/'
    · subst hc
      rw [if_pos rfl]
      cases t with
      | nil => rfl
      | cons d t2 =>
        have h2 : splitOnChar '/' ('/' :: d :: t2)
            = [] :: splitOnChar '/' (d :: t2) := by
          rw [splitOnChar_cons]
          simp
        rw [if_neg (List.cons_ne_nil d t2),
          if_neg (List.cons_ne_nil '/' (d :: t2)), h2, scanTokens_nil_token]
    · rw [if_neg hc]

/-- C8: `parseImageMogr2` strips a leading literal `imageMogr2` even when it
is not followed by a slash, so `imageMogr2` concatenated directly with any
token chain parses exactly like `imageMogr2/` followed by that chain. -/
theorem parse_strips_prefix_without_slash (s : String) :
    parseImageMogr2 ("imageMogr2" ++ s) = parseImageMogr2 ("imageMogr2/" ++ s) := by
  unfold parseImageMogr2
  have h1 : ("imageMogr2" ++ s).data = "imageMogr2".data ++ s.data :=
    String.data_append "imageMogr2" s
  have h2 : ("imageMogr2/" ++ s).data = "imageMogr2".data ++ '/' :: s.data := by
    rw [String.data_append]
    rfl
  rw [h1, h2]
  exact parseChars_prefix s.data

/-! ## C1 and C10: the transform merge -/

/-- The `autoOrient` default carried by an optional options object. -/
def optAutoOrient : Option QCloudCosOptions → Option Bool
  | none => none
  | some d => d.autoOrient

/-- The `ignoreError` default carried by an optional options object. -/
def optIgnoreError : Option QCloudCosOptions → Option Bool
  | none => none
  | some d => d.ignoreError

theorem transformMerge_autoOrient (d : Option QCloudCosOptions)
    (e v : QCloudCosOperations) :
    (transformMerge d e v).autoOrient
      = (v.autoOrient <|> (e.autoOrient <|> optAutoOrient d)) := by
  cases d with
  | none =>
    rw [transformMerge_fields_none]
    simp [optAutoOrient]
  | some dd =>
    rw [transformMerge_fields]
    rfl

theorem transformMerge_ignoreError (d : Option QCloudCosOptions)
    (e v : QCloudCosOperations) :
    (transformMerge d e v).ignoreError
      = (v.ignoreError <|> (e.ignoreError <|> optIgnoreError d)) := by
  cases d with
  | none =>
    rw [transformMerge_fields_none]
    simp [optIgnoreError]
  | some dd =>
    rw [transformMerge_fields]
    rfl

/-- The `auto-orient` token is emitted only for a truthy `autoOrient`. -/
theorem autoOrient_token_mem {o : QCloudCosOperations}
    (h : "auto-orient".data ∈ buildParts o) : o.autoOrient = some true := by
  by_contra hao
  unfold buildParts at h
  simp only [List.mem_append] at h
  rcases h with ((((((((((h | h) | h) | h) | h) | h) | h) | h) | h) | h) | h)
  · unfold resizePart at h
    split at h
    · cases hm : o.thumbnailMode.getD ThumbMode.fit <;> simp [hm] at h
    · exact absurd h (List.not_mem_nil _)
  · cases hi : o.iradius <;> simp [hi] at h
  · cases hi : o.rradius <;> simp [hi] at h
  · split at h
    · exact absurd (by assumption) hao
    · exact absurd h (List.not_mem_nil _)
  · cases hi : o.rotate <;> simp [hi] at h
  · cases hi : o.flip <;> simp [hi] at h
  · cases hi : o.format <;> simp only [hi] at h
    · exact absurd h (List.not_mem_nil _)
    · split at h
      · exact absurd h (List.not_mem_nil _)
      · simp at h
  · cases hi : o.quality <;> simp [hi] at h
  · cases hi : o.rquality <;> simp [hi] at h
  · cases hi : o.lquality <;> simp [hi] at h
  · split at h
    · simp at h
    · exact absurd h (List.not_mem_nil _)

/-- The `ignore-error/1` part is emitted only for a truthy `ignoreError`. -/
theorem ignoreError_token_mem {o : QCloudCosOperations}
    (h : ("ignore-error".data ++ '/' :: ['1']) ∈ buildParts o) :
    o.ignoreError = some true := by
  by_contra hie
  unfold buildParts at h
  simp only [List.mem_append] at h
  rcases h with ((((((((((h | h) | h) | h) | h) | h) | h) | h) | h) | h) | h)
  · unfold resizePart at h
    split at h
    · cases hm : o.thumbnailMode.getD ThumbMode.fit <;> simp [hm] at h
    · exact absurd h (List.not_mem_nil _)
  · cases hi : o.iradius <;> simp [hi] at h
  · cases hi : o.rradius <;> simp [hi] at h
  · split at h
    · simp at h
    · exact absurd h (List.not_mem_nil _)
  · cases hi : o.rotate <;> simp [hi] at h
  · cases hi : o.flip <;> simp [hi] at h
  · cases hi : o.format <;> simp only [hi] at h
    · exact absurd h (List.not_mem_nil _)
    · split at h
      · exact absurd h (List.not_mem_nil _)
      · simp at h
  · cases hi : o.quality <;> simp [hi] at h
  · cases hi : o.rquality <;> simp [hi] at h
  · cases hi : o.lquality <;> simp [hi] at h
  · split at h
    · exact absurd (by assumption) hie
    · exact absurd h (List.not_mem_nil _)


/-- C1: precedence in `transform`. For a URL from which extraction succeeds
with existing operations `E = r.operations`, defaults `D` and overrides `V`,
the output is generated from the merged set and the extracted pipeline
segments, `generate` serializes that merged set unchanged (its own spread
with absent options is the identity), and the merged set assigns to every
field the override when defined, else the existing value, else the default
(fields the options object cannot carry have no default layer); an override
field left undefined therefore never clears the value layered beneath it. -/
theorem transform_precedence (input : URLInput) (v : QCloudCosOperations)
    (d : QCloudCosOptions) (r : ExtractResult)
    (h : extract input = .ok (some r)) :
    transform input v (some d)
        = .ok (generate (.str r.src) (transformMerge (some d) r.operations v)
            none (some r.pipelineSegments))
      ∧ spreadOptsOps none (transformMerge (some d) r.operations v)
          = transformMerge (some d) r.operations v
      ∧ (transformMerge (some d) r.operations v).width
          = (v.width <|> r.operations.width)
      ∧ (transformMerge (some d) r.operations v).height
          = (v.height <|> r.operations.height)
      ∧ (transformMerge (some d) r.operations v).thumbnailMode
          = (v.thumbnailMode <|> (r.operations.thumbnailMode <|> d.thumbnailMode))
      ∧ (transformMerge (some d) r.operations v).format
          = (v.format <|> (r.operations.format <|> d.format))
      ∧ (transformMerge (some d) r.operations v).quality
          = (v.quality <|> (r.operations.quality <|> d.quality))
      ∧ (transformMerge (some d) r.operations v).rquality
          = (v.rquality <|> (r.operations.rquality <|> d.rquality))
      ∧ (transformMerge (some d) r.operations v).lquality
          = (v.lquality <|> (r.operations.lquality <|> d.lquality))
      ∧ (transformMerge (some d) r.operations v).autoOrient
          = (v.autoOrient <|> (r.operations.autoOrient <|> d.autoOrient))
      ∧ (transformMerge (some d) r.operations v).ignoreError
          = (v.ignoreError <|> (r.operations.ignoreError <|> d.ignoreError))
      ∧ (transformMerge (some d) r.operations v).rotate
          = (v.rotate <|> r.operations.rotate)
      ∧ (transformMerge (some d) r.operations v).flip
          = (v.flip <|> r.operations.flip)
      ∧ (transformMerge (some d) r.operations v).iradius
          = (v.iradius <|> r.operations.iradius)
      ∧ (transformMerge (some d) r.operations v).rradius
          = (v.rradius <|> r.operations.rradius) := by
  refine ⟨transform_of_extract_some input v (some d) r h, ?_⟩
  rw [transformMerge_fields]
  exact ⟨rfl, rfl, rfl, rfl, rfl, rfl, rfl, rfl, rfl, rfl, rfl, rfl, rfl, rfl⟩

set_option maxHeartbeats 1000000 in
/-- C1 witness: overrides beat existing URL state, existing URL state beats
defaults, and untouched fields fall through, at a concrete URL. -/
theorem transform_precedence_witness :
    extract (.str "https://b-1.cos.ap-beijing.myqcloud.com/p.jpg?imageMogr2/format/jpg/quality/60|watermark/1")
        = .ok (some
            { src := "https://b-1.cos.ap-beijing.myqcloud.com/p.jpg",
              operations := { format := some "jpg", quality := some (.num 60) },
              options := {},
              pipelineSegments := ["watermark/1"] })
      ∧ transform
          (.str "https://b-1.cos.ap-beijing.myqcloud.com/p.jpg?imageMogr2/format/jpg/quality/60|watermark/1")
          { format := some "webp" }
          (some
            { format := some "png", quality := some (.num 80),
              autoOrient := some true })
        = .ok "https://b-1.cos.ap-beijing.myqcloud.com/p.jpg?imageMogr2/auto-orient/format/webp/quality/60|watermark/1" := by
  refine ⟨rfl, ?_⟩
  exact ((transform_precedence
    (.str "https://b-1.cos.ap-beijing.myqcloud.com/p.jpg?imageMogr2/format/jpg/quality/60|watermark/1")
    { format := some "webp" }
    { format := some "png", quality := some (.num 80), autoOrient := some true }
    { src := "https://b-1.cos.ap-beijing.myqcloud.com/p.jpg",
      operations := { format := some "jpg", quality := some (.num 60) },
      options := {},
      pipelineSegments := ["watermark/1"] }
    rfl).1).trans (by rfl)

/-- C10: in `transform`, a boolean override explicitly set to `false`
(`autoOrient` or `ignoreError`) overrides an existing `true` extracted from
the URL — the merged field is the override when defined, else the existing
value, else the default — and because the serializer emits those tokens
only when the field is truthy, the corresponding part is then absent from
the serialized output; only an undefined override preserves the existing
flag. -/
theorem false_override_clears_flag (input : URLInput)
    (v : QCloudCosOperations) (d : Option QCloudCosOptions)
    (r : ExtractResult) (h : extract input = .ok (some r)) :
    transform input v d
        = .ok (generate (.str r.src) (transformMerge d r.operations v) none
            (some r.pipelineSegments))
      ∧ (transformMerge d r.operations v).autoOrient
          = (v.autoOrient <|> (r.operations.autoOrient <|> optAutoOrient d))
      ∧ (transformMerge d r.operations v).ignoreError
          = (v.ignoreError <|> (r.operations.ignoreError <|> optIgnoreError d))
      ∧ (v.autoOrient = some false →
          "auto-orient".data ∉ buildParts (transformMerge d r.operations v))
      ∧ (v.ignoreError = some false →
          ("ignore-error".data ++ '/' :: ['1'])
            ∉ buildParts (transformMerge d r.operations v)) := by
  refine ⟨transform_of_extract_some input v d r h,
    transformMerge_autoOrient d r.operations v,
    transformMerge_ignoreError d r.operations v, ?_, ?_⟩
  · intro hv hmem
    have hm := autoOrient_token_mem hmem
    rw [transformMerge_autoOrient, hv] at hm
    simp at hm
  · intro hv hmem
    have hm := ignoreError_token_mem hmem
    rw [transformMerge_ignoreError, hv] at hm
    simp at hm

set_option maxHeartbeats 1000000 in
/-- C10 witness: an explicit `autoOrient: false` removes the `auto-orient`
token that the input URL carried. -/
theorem false_override_clears_flag_witness :
    extract (.str "https://b-1.cos.ap-beijing.myqcloud.com/p.jpg?imageMogr2/auto-orient/format/jpg")
        = .ok (some
            { src := "https://b-1.cos.ap-beijing.myqcloud.com/p.jpg",
              operations := { format := some "jpg", autoOrient := some true },
              options := {},
              pipelineSegments := [] })
      ∧ "auto-orient".data ∉ buildParts (transformMerge none
          { format := some "jpg", autoOrient := some true }
          { autoOrient := some false })
      ∧ transform
          (.str "https://b-1.cos.ap-beijing.myqcloud.com/p.jpg?imageMogr2/auto-orient/format/jpg")
          { autoOrient := some false } none
        = .ok "https://b-1.cos.ap-beijing.myqcloud.com/p.jpg?imageMogr2/format/jpg" := by
  refine ⟨rfl, ?_, ?_⟩
  · exact (false_override_clears_flag
      (.str "https://b-1.cos.ap-beijing.myqcloud.com/p.jpg?imageMogr2/auto-orient/format/jpg")
      { autoOrient := some false } none
      { src := "https://b-1.cos.ap-beijing.myqcloud.com/p.jpg",
        operations := { format := some "jpg", autoOrient := some true },
        options := {},
        pipelineSegments := [] }
      rfl).2.2.2.1 rfl
  · exact ((false_override_clears_flag
      (.str "https://b-1.cos.ap-beijing.myqcloud.com/p.jpg?imageMogr2/auto-orient/format/jpg")
      { autoOrient := some false } none
      { src := "https://b-1.cos.ap-beijing.myqcloud.com/p.jpg",
        operations := { format := some "jpg", autoOrient := some true },
        options := {},
        pipelineSegments := [] }
      rfl).1).trans (by rfl)

/-! ## C3: characterization of `extract` -/

/-- Last-write-wins over a sequence of optional values: the last defined one
(if any) survives. -/
def lastWins {α : Type} (l : List (Option α)) : Option α :=
  l.foldl (fun x y => y <|> x) none

/-- The decoded operation sets of the dialect-owned segments, in order. -/
def mogrParses (q : List Char) : List QCloudCosOperations :=
  ((splitOnChar '|' q).filter isMogrSeg).map parseChars

/-- The foreign segments of a decoded query, verbatim and in order. -/
def foreignSegs (q : List Char) : List String :=
  ((splitOnChar '|' q).filter (fun s => ! isMogrSeg s)).map (fun l => String.mk l)

/-- Structure extensionality for operation sets. -/
theorem opsExt : ∀ {a b : QCloudCosOperations},
    a.width = b.width → a.height = b.height → a.format = b.format →
    a.quality = b.quality → a.thumbnailMode = b.thumbnailMode →
    a.autoOrient = b.autoOrient → a.rotate = b.rotate → a.flip = b.flip →
    a.iradius = b.iradius → a.rradius = b.rradius →
    a.rquality = b.rquality → a.lquality = b.lquality →
    a.ignoreError = b.ignoreError → a = b := by
  intro a b h1 h2 h3 h4 h5 h6 h7 h8 h9 h10 h11 h12 h13
  cases a
  cases b
  simp only [QCloudCosOperations.mk.injEq]
  exact ⟨h1, h2, h3, h4, h5, h6, h7, h8, h9, h10, h11, h12, h13⟩

theorem extractFoldAux_proj {α : Type} (f : QCloudCosOperations → Option α)
    (hf : ∀ a b, f (mergeOps a b) = (f b <|> f a)) :
    ∀ (segs : List (List Char)) (o : QCloudCosOperations) (ps : List String)
      (b : Bool),
      f (extractFoldAux segs (o, ps, b)).1
        = ((segs.filter isMogrSeg).map (fun s => f (parseChars s))).foldl
            (fun x y => y <|> x) (f o) := by
  intro segs
  induction segs with
  | nil =>
    intro o ps b
    rfl
  | cons seg rest ih =>
    intro o ps b
    by_cases hs : isMogrSeg seg
    · simp [extractFoldAux, hs, List.filter_cons, ih, hf]
    · have hs2 : isMogrSeg seg = false := by simpa using hs
      simp [extractFoldAux, hs2, List.filter_cons, ih]

theorem extractFoldAux_segs :
    ∀ (segs : List (List Char)) (o : QCloudCosOperations) (ps : List String)
      (b : Bool),
      (extractFoldAux segs (o, ps, b)).2.1
        = ps ++ (segs.filter (fun s => ! isMogrSeg s)).map (fun l => String.mk l) := by
  intro segs
  induction segs with
  | nil =>
    intro o ps b
    simp [extractFoldAux]
  | cons seg rest ih =>
    intro o ps b
    by_cases hs : isMogrSeg seg
    · simp [extractFoldAux, hs, ih]
    · simp [extractFoldAux, hs, ih]

theorem extractFoldAux_flag :
    ∀ (segs : List (List Char)) (o : QCloudCosOperations) (ps : List String)
      (b : Bool),
      (extractFoldAux segs (o, ps, b)).2.2 = (b || segs.any isMogrSeg) := by
  intro segs
  induction segs with
  | nil =>
    intro o ps b
    simp [extractFoldAux]
  | cons seg rest ih =>
    intro o ps b
    by_cases hs : isMogrSeg seg
    · simp [extractFoldAux, hs, ih]
    · simp [extractFoldAux, hs, ih]

theorem extractFoldAux_proj_init {α : Type} (f : QCloudCosOperations → Option α)
    (hf : ∀ a b, f (mergeOps a b) = (f b <|> f a)) (hinit : f {} = none)
    (q : List Char) :
    f (extractFoldAux (splitOnChar '|' q) ({}, [], false)).1
      = lastWins ((mogrParses q).map f) := by
  rw [extractFoldAux_proj f hf, hinit, lastWins, mogrParses, List.map_map]
  rfl

theorem extract_cos_some (input : URLInput) (u : JSURL) (q : List Char)
    (hp : parseInput input = some u) (hcos : cosHostTest u.hostname = true)
    (hd : decodePercent (u.search.data.drop 1) = some q) (hq : q ≠ [])
    (hcond : ¬ (¬ (extractFoldAux (splitOnChar '|' q) ({}, [], false)).2.2 = true
        ∧ (extractFoldAux (splitOnChar '|' q) ({}, [], false)).2.1 = [])) :
    extract input = .ok (some
      { src := u.origin ++ u.pathname,
        operations := (extractFoldAux (splitOnChar '|' q) ({}, [], false)).1,
        options := {},
        pipelineSegments :=
          (extractFoldAux (splitOnChar '|' q) ({}, [], false)).2.1 }) := by
  rw [extract_cos input u hp hcos]
  simp only [hd]
  rw [if_neg hq]
  split
  · rename_i hcontra
    exact absurd hcontra hcond
  · rfl

/-- C3: on a COS-matching URL whose query decodes to the non-empty `q`,
`extract` splits `q` on the pipe separator, decodes every segment that
starts with the namespace keyword and merges them field-by-field with
last-write-wins per field (never whole-object replacement), appends every
other segment verbatim and in original order to the foreign-segment
sequence, and returns as `src` the URL's origin plus path with query and
fragment discarded. -/
theorem extract_characterization (input : URLInput) (u : JSURL)
    (q : List Char) (hp : parseInput input = some u)
    (hcos : cosHostTest u.hostname = true)
    (hd : decodePercent (u.search.data.drop 1) = some q) (hq : q ≠ []) :
    extract input = .ok (some
      { src := u.origin ++ u.pathname,
        operations :=
          { width := lastWins ((mogrParses q).map fun o => o.width),
            height := lastWins ((mogrParses q).map fun o => o.height),
            format := lastWins ((mogrParses q).map fun o => o.format),
            quality := lastWins ((mogrParses q).map fun o => o.quality),
            thumbnailMode := lastWins ((mogrParses q).map fun o => o.thumbnailMode),
            autoOrient := lastWins ((mogrParses q).map fun o => o.autoOrient),
            rotate := lastWins ((mogrParses q).map fun o => o.rotate),
            flip := lastWins ((mogrParses q).map fun o => o.flip),
            iradius := lastWins ((mogrParses q).map fun o => o.iradius),
            rradius := lastWins ((mogrParses q).map fun o => o.rradius),
            rquality := lastWins ((mogrParses q).map fun o => o.rquality),
            lquality := lastWins ((mogrParses q).map fun o => o.lquality),
            ignoreError := lastWins ((mogrParses q).map fun o => o.ignoreError) },
        options := {},
        pipelineSegments := foreignSegs q }) := by
  have hcond : ¬ (¬ (extractFoldAux (splitOnChar '|' q) ({}, [], false)).2.2 = true
      ∧ (extractFoldAux (splitOnChar '|' q) ({}, [], false)).2.1 = []) := by
    rw [extractFoldAux_flag, extractFoldAux_segs]
    simp only [Bool.false_or, List.nil_append]
    intro hc
    obtain ⟨hnot, hnil⟩ := hc
    have hallnot : ∀ s ∈ splitOnChar '|' q, ¬ isMogrSeg s = true := by
      simpa [List.any_eq_true] using hnot
    have hfilter : (splitOnChar '|' q).filter (fun s => ! isMogrSeg s)
        = splitOnChar '|' q := by
      apply List.filter_eq_self.mpr
      intro s hs
      simp [hallnot s hs]
    rw [hfilter] at hnil
    exact splitOnChar_ne_nil '|' q (by simpa using hnil)
  rw [extract_cos_some input u q hp hcos hd hq hcond]
  have hops : (extractFoldAux (splitOnChar '|' q) ({}, [], false)).1
      = { width := lastWins ((mogrParses q).map fun o => o.width),
          height := lastWins ((mogrParses q).map fun o => o.height),
          format := lastWins ((mogrParses q).map fun o => o.format),
          quality := lastWins ((mogrParses q).map fun o => o.quality),
          thumbnailMode := lastWins ((mogrParses q).map fun o => o.thumbnailMode),
          autoOrient := lastWins ((mogrParses q).map fun o => o.autoOrient),
          rotate := lastWins ((mogrParses q).map fun o => o.rotate),
          flip := lastWins ((mogrParses q).map fun o => o.flip),
          iradius := lastWins ((mogrParses q).map fun o => o.iradius),
          rradius := lastWins ((mogrParses q).map fun o => o.rradius),
          rquality := lastWins ((mogrParses q).map fun o => o.rquality),
          lquality := lastWins ((mogrParses q).map fun o => o.lquality),
          ignoreError := lastWins ((mogrParses q).map fun o => o.ignoreError) } :=
    opsExt
      (extractFoldAux_proj_init (fun o => o.width) (fun a b => rfl) rfl q)
      (extractFoldAux_proj_init (fun o => o.height) (fun a b => rfl) rfl q)
      (extractFoldAux_proj_init (fun o => o.format) (fun a b => rfl) rfl q)
      (extractFoldAux_proj_init (fun o => o.quality) (fun a b => rfl) rfl q)
      (extractFoldAux_proj_init (fun o => o.thumbnailMode) (fun a b => rfl) rfl q)
      (extractFoldAux_proj_init (fun o => o.autoOrient) (fun a b => rfl) rfl q)
      (extractFoldAux_proj_init (fun o => o.rotate) (fun a b => rfl) rfl q)
      (extractFoldAux_proj_init (fun o => o.flip) (fun a b => rfl) rfl q)
      (extractFoldAux_proj_init (fun o => o.iradius) (fun a b => rfl) rfl q)
      (extractFoldAux_proj_init (fun o => o.rradius) (fun a b => rfl) rfl q)
      (extractFoldAux_proj_init (fun o => o.rquality) (fun a b => rfl) rfl q)
      (extractFoldAux_proj_init (fun o => o.lquality) (fun a b => rfl) rfl q)
      (extractFoldAux_proj_init (fun o => o.ignoreError) (fun a b => rfl) rfl q)
  have hsegs : (extractFoldAux (splitOnChar '|' q) ({}, [], false)).2.1
      = foreignSegs q := by
    rw [extractFoldAux_segs]
    rfl
  rw [hops, hsegs]

set_option maxHeartbeats 1000000 in
/-- C3 witness: two dialect segments merge with last-write-wins per field
(the later `format` wins, the earlier `quality` survives) and the two
foreign segments are kept verbatim and in order. -/
theorem extract_characterization_witness :
    extract (.str "https://b-1.cos.ap-beijing.myqcloud.com/p.jpg?imageMogr2/format/jpg/quality/60|watermark/1|imageMogr2/format/webp|watermark/2")
      = .ok (some
          { src := "https://b-1.cos.ap-beijing.myqcloud.com/p.jpg",
            operations := { format := some "webp", quality := some (.num 60) },
            options := {},
            pipelineSegments := ["watermark/1", "watermark/2"] }) :=
  (extract_characterization
    (.str "https://b-1.cos.ap-beijing.myqcloud.com/p.jpg?imageMogr2/format/jpg/quality/60|watermark/1|imageMogr2/format/webp|watermark/2")
    ⟨"https", "b-1.cos.ap-beijing.myqcloud.com", "/p.jpg",
      "?imageMogr2/format/jpg/quality/60|watermark/1|imageMogr2/format/webp|watermark/2",
      ""⟩
    "imageMogr2/format/jpg/quality/60|watermark/1|imageMogr2/format/webp|watermark/2".data
    rfl rfl rfl (by decide)).trans (by rfl)

/-! ## C4: foreign segment preservation -/

/-- `generate` on a parsed, hostname-matching input with supplied pipeline
segments. -/
theorem generate_cos_segs (src : URLInput) (u : JSURL)
    (ops : QCloudCosOperations) (opts : Option QCloudCosOptions)
    (segs : List String)
    (hp : parseInput src = some u) (hcos : cosHostTest u.hostname = true) :
    generate src ops opts (some segs) =
      (if ((if buildImageMogr2 (spreadOptsOps opts ops) = "" then []
            else [buildImageMogr2 (spreadOptsOps opts ops)]) ++ segs) = [] then
        u.origin ++ u.pathname
      else u.origin ++ u.pathname ++ "?"
        ++ joinPipe ((if buildImageMogr2 (spreadOptsOps opts ops) = "" then []
            else [buildImageMogr2 (spreadOptsOps opts ops)]) ++ segs)) := by
  rw [generate_cos src u ops opts (some segs) hp hcos]

/-- C4: every foreign pipeline segment of the input URL appears unmodified
and in its original relative order in the output of `transform`, placed
after the freshly serialized dialect segment (when that segment is
non-empty), and likewise in the output of a `generate` call that is handed
the extracted pipeline segments. -/
theorem foreign_segments_preserved (input : URLInput)
    (v w : QCloudCosOperations) (d : Option QCloudCosOptions)
    (r : ExtractResult) (usrc : JSURL)
    (h : extract input = .ok (some r))
    (hu : parseURLString r.src = some usrc)
    (hb : usrc.origin ++ usrc.pathname = r.src)
    (hcos : cosHostTest usrc.hostname = true)
    (hne : r.pipelineSegments ≠ []) :
    transform input v d
        = .ok (r.src ++ "?" ++ joinPipe
            ((if buildImageMogr2 (transformMerge d r.operations v) = "" then []
              else [buildImageMogr2 (transformMerge d r.operations v)])
              ++ r.pipelineSegments))
      ∧ generate (.str r.src) w none (some r.pipelineSegments)
          = r.src ++ "?" ++ joinPipe
              ((if buildImageMogr2 w = "" then [] else [buildImageMogr2 w])
                ++ r.pipelineSegments) := by
  have hgen : ∀ (o : QCloudCosOperations) (opts : Option QCloudCosOptions),
      generate (.str r.src) o opts (some r.pipelineSegments)
        = r.src ++ "?" ++ joinPipe
            ((if buildImageMogr2 (spreadOptsOps opts o) = "" then []
              else [buildImageMogr2 (spreadOptsOps opts o)])
              ++ r.pipelineSegments) := by
    intro o opts
    rw [generate_cos_segs (.str r.src) usrc o opts r.pipelineSegments hu hcos]
    have hne2 : ((if buildImageMogr2 (spreadOptsOps opts o) = "" then []
        else [buildImageMogr2 (spreadOptsOps opts o)])
        ++ r.pipelineSegments) ≠ [] := by
      simp [hne]
    rw [if_neg hne2, hb]
  constructor
  · rw [transform_of_extract_some input v d r h]
    exact congrArg Except.ok (hgen (transformMerge d r.operations v) none)
  · exact hgen w none

set_option maxHeartbeats 1000000 in
/-- C4 witness: the `watermark/1` stage of the input URL reappears verbatim
after the rebuilt dialect segment. -/
theorem foreign_segments_preserved_witness :
    extract (.str "https://b-1.cos.ap-beijing.myqcloud.com/p.jpg?imageMogr2/format/jpg/quality/60|watermark/1")
        = .ok (some
            { src := "https://b-1.cos.ap-beijing.myqcloud.com/p.jpg",
              operations := { format := some "jpg", quality := some (.num 60) },
              options := {},
              pipelineSegments := ["watermark/1"] })
      ∧ transform
          (.str "https://b-1.cos.ap-beijing.myqcloud.com/p.jpg?imageMogr2/format/jpg/quality/60|watermark/1")
          { format := some "webp" } none
        = .ok "https://b-1.cos.ap-beijing.myqcloud.com/p.jpg?imageMogr2/format/webp/quality/60|watermark/1" := by
  refine ⟨rfl, ?_⟩
  exact ((foreign_segments_preserved
    (.str "https://b-1.cos.ap-beijing.myqcloud.com/p.jpg?imageMogr2/format/jpg/quality/60|watermark/1")
    { format := some "webp" } {} none
    { src := "https://b-1.cos.ap-beijing.myqcloud.com/p.jpg",
      operations := { format := some "jpg", quality := some (.num 60) },
      options := {},
      pipelineSegments := ["watermark/1"] }
    ⟨"https", "b-1.cos.ap-beijing.myqcloud.com", "/p.jpg", "", ""⟩
    rfl rfl rfl rfl (by decide)).1).trans (by rfl)

/-! ## C7: shape of the serializer -/

/-- The claim's resize/crop token: emitted exactly when a width or height is
present, `thumbnail` or `crop` chosen by `thumbnailMode` (defaulting to
fit), a missing dimension rendered as the empty string in its position. -/
def specResizeToken (o : QCloudCosOperations) : Option (List Char) :=
  if o.width.isSome ∨ o.height.isSome then
    some (match o.thumbnailMode.getD .fit with
      | .cover => "crop".data ++ '/' :: wxhChars o
      | .force => "thumbnail".data ++ '/' :: (wxhChars o ++ ['!'])
      | .shrinkOnly => "thumbnail".data ++ '/' :: (wxhChars o ++ ['>'])
      | .enlargeOnly => "thumbnail".data ++ '/' :: (wxhChars o ++ ['<'])
      | .fit => "thumbnail".data ++ '/' :: wxhChars o)
  else none

/-- A second serializer written from the amended claim's wording: one
optional token per slot, in the claim's fixed order — resize/crop,
iradius, rradius, auto-orient, rotate, flip, format, quality, rquality,
lquality, ignore-error/1 — each present exactly when its field is present,
with two truthiness carve-outs: booleans when truthy, and `format` when
non-empty (the amendment; the claim's literal reading, with no format
carve-out, is `claimTokens` below and is refuted at `{format: ""}`). -/
def specTokens (o : QCloudCosOperations) : List (List Char) :=
  [specResizeToken o,
   o.iradius.map (fun n => "iradius".data ++ '/' :: intToChars n),
   o.rradius.map (fun n => "rradius".data ++ '/' :: intToChars n),
   (if o.autoOrient = some true then some "auto-orient".data else none),
   o.rotate.map (fun n => "rotate".data ++ '/' :: intToChars n),
   o.flip.map (fun f => "flip".data ++ '/' :: flipChars f),
   o.format.bind (fun f =>
     if f = "" then none else some ("format".data ++ '/' :: f.data)),
   o.quality.map (fun v => "quality".data ++ '/' :: qualityChars v),
   o.rquality.map (fun n => "rquality".data ++ '/' :: intToChars n),
   o.lquality.map (fun n => "lquality".data ++ '/' :: intToChars n),
   (if o.ignoreError = some true then some ("ignore-error".data ++ '/' :: ['1'])
    else none)].filterMap id

theorem filterMap_id_cons {α : Type} (x : Option α) (xs : List (Option α)) :
    (x :: xs).filterMap id = x.toList ++ xs.filterMap id := by
  cases x <;> simp

theorem specTokens_eq_buildParts (o : QCloudCosOperations) :
    specTokens o = buildParts o := by
  have h1 : (specResizeToken o).toList = resizePart o := by
    unfold specResizeToken resizePart
    split <;> rfl
  have h2 : (o.iradius.map (fun n => "iradius".data ++ '/' :: intToChars n)).toList
      = (match o.iradius with
         | some n => ["iradius".data ++ '/' :: intToChars n]
         | none => []) := by
    cases o.iradius <;> rfl
  have h3 : (o.rradius.map (fun n => "rradius".data ++ '/' :: intToChars n)).toList
      = (match o.rradius with
         | some n => ["rradius".data ++ '/' :: intToChars n]
         | none => []) := by
    cases o.rradius <;> rfl
  have h4 : (if o.autoOrient = some true then some "auto-orient".data
      else none).toList
      = (if o.autoOrient = some true then ["auto-orient".data] else []) := by
    split <;> rfl
  have h5 : (o.rotate.map (fun n => "rotate".data ++ '/' :: intToChars n)).toList
      = (match o.rotate with
         | some n => ["rotate".data ++ '/' :: intToChars n]
         | none => []) := by
    cases o.rotate <;> rfl
  have h6 : (o.flip.map (fun f => "flip".data ++ '/' :: flipChars f)).toList
      = (match o.flip with
         | some f => ["flip".data ++ '/' :: flipChars f]
         | none => []) := by
    cases o.flip <;> rfl
  have h7 : (o.format.bind (fun f =>
      if f = "" then none else some ("format".data ++ '/' :: f.data))).toList
      = (match o.format with
         | some f => if f = "" then [] else ["format".data ++ '/' :: f.data]
         | none => []) := by
    cases o.format with
    | none => rfl
    | some f =>
      show ((if f = "" then none
        else some ("format".data ++ '/' :: f.data)) : Option (List Char)).toList
        = (if f = "" then [] else ["format".data ++ '/' :: f.data])
      split <;> rfl
  have h8 : (o.quality.map (fun v => "quality".data ++ '/' :: qualityChars v)).toList
      = (match o.quality with
         | some q => ["quality".data ++ '/' :: qualityChars q]
         | none => []) := by
    cases o.quality <;> rfl
  have h9 : (o.rquality.map (fun n => "rquality".data ++ '/' :: intToChars n)).toList
      = (match o.rquality with
         | some n => ["rquality".data ++ '/' :: intToChars n]
         | none => []) := by
    cases o.rquality <;> rfl
  have h10 : (o.lquality.map (fun n => "lquality".data ++ '/' :: intToChars n)).toList
      = (match o.lquality with
         | some n => ["lquality".data ++ '/' :: intToChars n]
         | none => []) := by
    cases o.lquality <;> rfl
  have h11 : (if o.ignoreError = some true
      then some ("ignore-error".data ++ '/' :: ['1']) else none).toList
      = (if o.ignoreError = some true
         then ["ignore-error".data ++ '/' :: ['1']] else []) := by
    split <;> rfl
  unfold specTokens buildParts
  simp only [filterMap_id_cons, List.filterMap_nil, List.append_nil]
  rw [h1, h2, h3, h4, h5, h6, h7, h8, h9, h10, h11]
  simp [List.append_assoc]

/-- C7 (amended): `buildImageMogr2` returns the empty string when no token
is produced, and otherwise the namespace keyword, a slash, and the tokens
of `specTokens` — the claim's fixed order with each token present exactly
when its field is present, booleans when truthy and `format` when
non-empty — joined with slashes. -/
theorem serializer_shape (o : QCloudCosOperations) :
    buildImageMogr2 o =
      (match specTokens o with
       | [] => ""
       | ps => String.mk ("imageMogr2/".data ++ joinChar '/' ps)) := by
  rw [specTokens_eq_buildParts]
  rfl

/-! ## C2: the serialize/deserialize round trip -/

theorem intToChars_digits_of_nonneg {n : Int} (h : 0 ≤ n) :
    ∀ c ∈ intToChars n, c.isDigit := by
  unfold intToChars
  rw [if_neg (by omega)]
  exact natToChars_all_digits n.toNat

theorem not_slash_of_digits {l : List Char} (h : ∀ c ∈ l, c.isDigit) :
    '/' ∉ l :=
  fun hm => absurd (h '/' hm) (by decide)

theorem intToChars_no_slash (n : Int) : '/' ∉ intToChars n := by
  unfold intToChars
  split
  · intro hm
    rcases List.mem_cons.mp hm with h | h
    · exact absurd h (by decide)
    · exact absurd (natToChars_all_digits _ '/' h) (by decide)
  · exact not_slash_of_digits (natToChars_all_digits _)

theorem split_kw_arg (kw arg : List Char) (hkw : '/' ∉ kw) (harg : '/' ∉ arg) :
    splitOnChar '/' (kw ++ '/' :: arg) = [kw, arg] := by
  rw [splitOnChar_append_cons, splitOnChar_of_not_mem hkw,
    splitOnChar_of_not_mem harg]
  rfl

theorem splitOnChar_joinChar_map (c : Char) :
    ∀ (ps : List (List Char)), ps ≠ [] →
      splitOnChar c (joinChar c ps) = (ps.map (splitOnChar c)).flatten := by
  intro ps
  induction ps with
  | nil => intro h; exact absurd rfl h
  | cons p rest ih =>
    intro _
    cases rest with
    | nil => simp [joinChar]
    | cons q qs =>
      show splitOnChar c (p ++ c :: joinChar c (q :: qs)) = _
      rw [splitOnChar_append_cons, ih (by simp)]
      simp

theorem buildParts_elem_ne_nil (o : QCloudCosOperations) :
    ∀ x ∈ buildParts o, x ≠ [] := by
  intro x hx
  unfold buildParts at hx
  simp only [List.mem_append] at hx
  rcases hx with ((((((((((h | h) | h) | h) | h) | h) | h) | h) | h) | h) | h)
  · unfold resizePart at h
    split at h
    · simp only [List.mem_singleton] at h
      subst h
      cases hm : o.thumbnailMode.getD ThumbMode.fit <;> simp [hm]
    · exact absurd h (List.not_mem_nil _)
  · cases hi : o.iradius <;> simp [hi] at h
    simp [h]
  · cases hi : o.rradius <;> simp [hi] at h
    simp [h]
  · split at h
    · simp only [List.mem_singleton] at h
      simp [h]
    · exact absurd h (List.not_mem_nil _)
  · cases hi : o.rotate <;> simp [hi] at h
    simp [h]
  · cases hi : o.flip <;> simp [hi] at h
    simp [h]
  · cases hi : o.format <;> simp only [hi] at h
    · exact absurd h (List.not_mem_nil _)
    · split at h
      · exact absurd h (List.not_mem_nil _)
      · simp only [List.mem_singleton] at h
        simp [h]
  · cases hi : o.quality <;> simp [hi] at h
    simp [h]
  · cases hi : o.rquality <;> simp [hi] at h
    simp [h]
  · cases hi : o.lquality <;> simp [hi] at h
    simp [h]
  · split at h
    · simp only [List.mem_singleton] at h
      simp [h]
    · exact absurd h (List.not_mem_nil _)

/-- One unfolding step of the scan on at least two remaining tokens. -/
theorem scanAux_succ_cons (f : Nat) (tok next : List Char)
    (rest2 : List (List Char)) (o : QCloudCosOperations) :
    scanAux (f + 1) (tok :: next :: rest2) o =
      (if tok = "thumbnail".data then scanAux f rest2 (applyThumbnail o next)
      else if tok = "crop".data then scanAux f rest2 (applyCrop o next)
      else if tok = "gravity".data then scanAux f rest2 o
      else if tok = "iradius".data then scanAux f rest2 (setIradius o next)
      else if tok = "rradius".data then scanAux f rest2 (setRradius o next)
      else if tok = "auto-orient".data then
        scanAux f (next :: rest2) { o with autoOrient := some true }
      else if tok = "rotate".data then scanAux f rest2 (setRotate o next)
      else if tok = "flip".data then scanAux f rest2 (setFlip o next)
      else if tok = "format".data then
        scanAux f rest2 { o with format := some (String.mk next) }
      else if tok = "quality".data then scanAux f rest2 (setQuality o next)
      else if tok = "rquality".data then scanAux f rest2 (setRquality o next)
      else if tok = "lquality".data then scanAux f rest2 (setLquality o next)
      else if tok = "ignore-error".data then
        if next = ['1'] then scanAux f rest2 { o with ignoreError := some true }
        else scanAux f (next :: rest2) { o with ignoreError := some true }
      else scanAux f (next :: rest2) o) := rfl

/-- Above its natural fuel, the scan's result does not depend on the fuel:
every iteration consumes at least one slot. -/
theorem scanAux_eq_scanTokens :
    ∀ (f : Nat) (ts : List (List Char)) (o : QCloudCosOperations),
      ts.length ≤ f → scanAux f ts o = scanTokens ts o := by
  intro f
  induction f using Nat.strong_induction_on with
  | _ f ih =>
    intro ts o hf
    cases ts with
    | nil =>
      cases f <;> rfl
    | cons tok rest =>
      cases f with
      | zero => simp at hf
      | succ g =>
        have hrest : rest.length ≤ g := by
          simp only [List.length_cons] at hf
          omega
        have key : ∀ (X : List (List Char)) (o2 : QCloudCosOperations),
            X.length ≤ rest.length → scanAux g X o2 = scanAux rest.length X o2 := by
          intro X o2 hX
          rw [ih g (by omega) X o2 (by omega), ih rest.length (by omega) X o2 hX]
        show scanAux (g + 1) (tok :: rest) o
          = scanAux (rest.length + 1) (tok :: rest) o
        cases rest with
        | nil => rfl
        | cons next rest2 =>
          rw [scanAux_succ_cons g, scanAux_succ_cons ((next :: rest2).length)]
          have k1 : ∀ o2, scanAux g rest2 o2
              = scanAux ((next :: rest2).length) rest2 o2 :=
            fun o2 => key rest2 o2 (by simp)
          have k2 : ∀ o2, scanAux g (next :: rest2) o2
              = scanAux ((next :: rest2).length) (next :: rest2) o2 :=
            fun o2 => key (next :: rest2) o2 le_rfl
          rw [k1, k1, k1, k1, k1, k1, k1, k1, k1, k1, k1, k1, k2, k2, k2]

/-- The characters of one optional dimension inside `${w}x${h}`. -/
def dimChars : Option Int → List Char
  | some n => intToChars n
  | none => []

/-- The modifier suffix the serializer appends for each `thumbnailMode`. -/
def markerOf : Option ThumbMode → List Char
  | some ThumbMode.force => ['!']
  | some ThumbMode.shrinkOnly => ['>']
  | some ThumbMode.enlargeOnly => ['<']
  | _ => []

/-- The keyword of the resize part: `crop` for cover, `thumbnail` otherwise. -/
def resizeKw (o : QCloudCosOperations) : List Char :=
  match o.thumbnailMode with
  | some ThumbMode.cover => "crop".data
  | _ => "thumbnail".data

/-- The argument of the resize part. -/
def resizeArgChars (o : QCloudCosOperations) : List Char :=
  wxhChars o ++ markerOf o.thumbnailMode

theorem wxhChars_eq (o : QCloudCosOperations) :
    wxhChars o = dimChars o.width ++ 'x' :: dimChars o.height := rfl

theorem resizePart_eq (o : QCloudCosOperations) :
    resizePart o = if o.width.isSome ∨ o.height.isSome
      then [resizeKw o ++ '/' :: resizeArgChars o] else [] := by
  unfold resizePart resizeKw resizeArgChars markerOf
  cases hm : o.thumbnailMode with
  | none => simp
  | some m => cases m <;> simp

theorem intToChars_ne_nil (n : Int) : intToChars n ≠ [] := by
  unfold intToChars
  split
  · simp
  · exact natToChars_ne_nil _

theorem natOfChars_intToChars {n : Int} (h : 0 ≤ n) :
    (natOfChars (intToChars n) : Int) = n := by
  unfold intToChars
  rw [if_neg (by omega), natOfChars_natToChars]
  omega

theorem dimChars_digits {w : Option Int} (hw : ∀ n, w = some n → 0 ≤ n) :
    ∀ c ∈ dimChars w, c.isDigit := by
  cases w with
  | none => simp [dimChars]
  | some n => exact intToChars_digits_of_nonneg (hw n rfl)

theorem matchWxH_spec (a b tail : List Char)
    (ha : ∀ c ∈ a, c.isDigit) (hb : ∀ c ∈ b, c.isDigit)
    (htail : ∀ c, tail.head? = some c → c.isDigit = false) :
    matchWxH (a ++ 'x' :: (b ++ tail)) = some (a, b, tail) := by
  have htake : (b ++ tail).takeWhile Char.isDigit = b := by
    rw [takeWhile_append_all hb]
    cases tail with
    | nil => simp
    | cons c t =>
      rw [List.takeWhile_cons, htail c rfl]
      simp
  have hdrop : (b ++ tail).dropWhile Char.isDigit = tail := by
    rw [dropWhile_append_all hb]
    cases tail with
    | nil => simp
    | cons c t =>
      rw [List.dropWhile_cons, htail c rfl]
      simp
  unfold matchWxH
  rw [dropWhile_append_all ha, List.dropWhile_cons]
  simp only [Char.isDigit]
  rw [takeWhile_append_all ha, List.takeWhile_cons]
  simp only [Char.isDigit]
  simp [htake, hdrop]

theorem setWH_dims (acc : QCloudCosOperations) (w h : Option Int)
    (hw : ∀ n, w = some n → 0 ≤ n) (hh : ∀ n, h = some n → 0 ≤ n) :
    setWH acc (dimChars w) (dimChars h)
      = { acc with width := w <|> acc.width, height := h <|> acc.height } := by
  cases w with
  | none =>
    cases h with
    | none => rfl
    | some n =>
      unfold setWH dimChars
      simp [intToChars_ne_nil, natOfChars_intToChars (hh n rfl)]
  | some m =>
    cases h with
    | none =>
      unfold setWH dimChars
      simp [intToChars_ne_nil, natOfChars_intToChars (hw m rfl)]
    | some n =>
      unfold setWH dimChars
      simp [intToChars_ne_nil, natOfChars_intToChars (hw m rfl),
        natOfChars_intToChars (hh n rfl)]

theorem markerOf_head_not_digit (m : Option ThumbMode) :
    ∀ c, (markerOf m).head? = some c → c.isDigit = false := by
  intro c hc
  cases m with
  | none => simp [markerOf] at hc
  | some mm =>
    cases mm <;> simp [markerOf] at hc <;> simp [← hc]

theorem applyThumbnail_some (acc : QCloudCosOperations) (s d1 d2 rem : List Char)
    (h : matchWxH s = some (d1, d2, rem)) :
    applyThumbnail acc s =
      (if rem = ['!'] then { setWH acc d1 d2 with thumbnailMode := some ThumbMode.force }
       else if rem = ['>'] then { setWH acc d1 d2 with thumbnailMode := some ThumbMode.shrinkOnly }
       else if rem = ['<'] then { setWH acc d1 d2 with thumbnailMode := some ThumbMode.enlargeOnly }
       else setWH acc d1 d2) := by
  unfold applyThumbnail
  rw [h]

theorem applyCrop_some (acc : QCloudCosOperations) (s d1 d2 rem : List Char)
    (h : matchWxH s = some (d1, d2, rem)) :
    applyCrop acc s = { setWH acc d1 d2 with thumbnailMode := some ThumbMode.cover } := by
  unfold applyCrop
  rw [h]

theorem applyThumbnail_dims (acc : QCloudCosOperations) (w h : Option Int)
    (m : Option ThumbMode)
    (hw : ∀ n, w = some n → 0 ≤ n) (hh : ∀ n, h = some n → 0 ≤ n)
    (hfit : m ≠ some ThumbMode.fit) (hcov : m ≠ some ThumbMode.cover) :
    applyThumbnail acc ((dimChars w ++ 'x' :: dimChars h) ++ markerOf m)
      = { acc with width := w <|> acc.width, height := h <|> acc.height,
                    thumbnailMode := m <|> acc.thumbnailMode } := by
  have hmatch : matchWxH ((dimChars w ++ 'x' :: dimChars h) ++ markerOf m)
      = some (dimChars w, dimChars h, markerOf m) := by
    rw [List.append_assoc, List.cons_append]
    exact matchWxH_spec _ _ _ (dimChars_digits hw) (dimChars_digits hh)
      (markerOf_head_not_digit m)
  rw [applyThumbnail_some acc _ _ _ _ hmatch]
  cases m with
  | none =>
    have hm : markerOf (none : Option ThumbMode) = [] := rfl
    rw [hm, if_neg (by decide), if_neg (by decide), if_neg (by decide),
      setWH_dims acc w h hw hh]
    rfl
  | some mm =>
    cases mm with
    | fit => exact absurd rfl hfit
    | cover => exact absurd rfl hcov
    | force =>
      have hm : markerOf (some ThumbMode.force) = ['!'] := rfl
      rw [hm, if_pos rfl, setWH_dims acc w h hw hh]
      rfl
    | shrinkOnly =>
      have hm : markerOf (some ThumbMode.shrinkOnly) = ['>'] := rfl
      rw [hm, if_neg (by decide), if_pos rfl, setWH_dims acc w h hw hh]
      rfl
    | enlargeOnly =>
      have hm : markerOf (some ThumbMode.enlargeOnly) = ['<'] := rfl
      rw [hm, if_neg (by decide), if_neg (by decide), if_pos rfl,
        setWH_dims acc w h hw hh]
      rfl

theorem applyCrop_dims (acc : QCloudCosOperations) (w h : Option Int)
    (hw : ∀ n, w = some n → 0 ≤ n) (hh : ∀ n, h = some n → 0 ≤ n) :
    applyCrop acc (dimChars w ++ 'x' :: dimChars h)
      = { acc with width := w <|> acc.width, height := h <|> acc.height,
                    thumbnailMode := some ThumbMode.cover } := by
  have hmatch : matchWxH (dimChars w ++ 'x' :: dimChars h)
      = some (dimChars w, dimChars h, []) := by
    have := matchWxH_spec (dimChars w) (dimChars h) []
      (dimChars_digits hw) (dimChars_digits hh) (by simp)
    simpa using this
  rw [applyCrop_some acc _ _ _ _ hmatch, setWH_dims acc w h hw hh]

theorem opt_orElse_none {α : Type} (x : Option α) : (x <|> none) = x := by
  cases x <;> rfl

/-! Token chunks of the serialized string, one per `buildParts` push, and the
effect of scanning each chunk. -/

def numTokens (kw : List Char) : Option Int → List (List Char)
  | some n => [kw, intToChars n]
  | none => []

def flipTokens : Option FlipDir → List (List Char)
  | some f => ["flip".data, flipChars f]
  | none => []

def formatTokens : Option String → List (List Char)
  | some f => if f = "" then [] else ["format".data, f.data]
  | none => []

def qualityTokens : Option QualityV → List (List Char)
  | some q => ["quality".data, qualityChars q]
  | none => []

def autoTokens (v : Option Bool) : List (List Char) :=
  if v = some true then ["auto-orient".data] else []

def ignoreTokens (v : Option Bool) : List (List Char) :=
  if v = some true then ["ignore-error".data, ['1']] else []

def resizeTokens (o : QCloudCosOperations) : List (List Char) :=
  if o.width.isSome ∨ o.height.isSome then [resizeKw o, resizeArgChars o] else []

/-- The serializer output, re-expressed as slash-split tokens chunk by chunk. -/
def tokensOf (o : QCloudCosOperations) : List (List Char) :=
  resizeTokens o
    ++ numTokens "iradius".data o.iradius
    ++ numTokens "rradius".data o.rradius
    ++ autoTokens o.autoOrient
    ++ numTokens "rotate".data o.rotate
    ++ flipTokens o.flip
    ++ formatTokens o.format
    ++ qualityTokens o.quality
    ++ numTokens "rquality".data o.rquality
    ++ numTokens "lquality".data o.lquality
    ++ ignoreTokens o.ignoreError

theorem scan_chunk_resize (o : QCloudCosOperations) (rest : List (List Char))
    (acc : QCloudCosOperations)
    (hw : ∀ n, o.width = some n → 0 ≤ n) (hh : ∀ n, o.height = some n → 0 ≤ n)
    (hfit : o.thumbnailMode ≠ some ThumbMode.fit)
    (hdang : o.width = none → o.height = none → o.thumbnailMode = none) :
    scanTokens (resizeTokens o ++ rest) acc
      = scanTokens rest { acc with width := o.width <|> acc.width,
                                   height := o.height <|> acc.height,
                                   thumbnailMode := o.thumbnailMode <|> acc.thumbnailMode } := by
  unfold resizeTokens
  by_cases hp : o.width.isSome ∨ o.height.isSome
  · rw [if_pos hp]
    by_cases hcov : o.thumbnailMode = some ThumbMode.cover
    · have hkw : resizeKw o = "crop".data := by
        unfold resizeKw
        rw [hcov]
      have harg : resizeArgChars o = dimChars o.width ++ 'x' :: dimChars o.height := by
        unfold resizeArgChars
        rw [hcov, wxhChars_eq]
        simp [markerOf]
      rw [hkw, harg]
      have h1 : scanTokens ("crop".data
            :: (dimChars o.width ++ 'x' :: dimChars o.height) :: rest) acc
          = scanAux (rest.length + 1) rest
              (applyCrop acc (dimChars o.width ++ 'x' :: dimChars o.height)) := rfl
      simp only [List.cons_append, List.nil_append]
      rw [h1, scanAux_eq_scanTokens (rest.length + 1) rest
        (applyCrop acc (dimChars o.width ++ 'x' :: dimChars o.height))
        (Nat.le_succ rest.length),
        applyCrop_dims acc o.width o.height hw hh, hcov]
      rfl
    · have hkw : resizeKw o = "thumbnail".data := by
        unfold resizeKw
        cases hm : o.thumbnailMode with
        | none => rfl
        | some m =>
          cases m with
          | cover => exact absurd hm hcov
          | fit => rfl
          | force => rfl
          | shrinkOnly => rfl
          | enlargeOnly => rfl
      rw [hkw]
      have h1 : scanTokens ("thumbnail".data :: resizeArgChars o :: rest) acc
          = scanAux (rest.length + 1) rest
              (applyThumbnail acc (resizeArgChars o)) := rfl
      have h2 : applyThumbnail acc (resizeArgChars o)
          = { acc with width := o.width <|> acc.width,
                       height := o.height <|> acc.height,
                       thumbnailMode := o.thumbnailMode <|> acc.thumbnailMode } :=
        applyThumbnail_dims acc o.width o.height o.thumbnailMode hw hh hfit hcov
      simp only [List.cons_append, List.nil_append]
      rw [h1, scanAux_eq_scanTokens (rest.length + 1) rest
        (applyThumbnail acc (resizeArgChars o)) (Nat.le_succ rest.length), h2]
  · rw [if_neg hp]
    have hw0 : o.width = none := by
      cases hv : o.width with
      | none => rfl
      | some v => exact absurd (Or.inl (by rw [hv]; rfl)) hp
    have hh0 : o.height = none := by
      cases hv : o.height with
      | none => rfl
      | some v => exact absurd (Or.inr (by rw [hv]; rfl)) hp
    rw [hw0, hh0, hdang hw0 hh0]
    rfl

theorem scan_chunk_iradius (v : Option Int) (rest : List (List Char))
    (acc : QCloudCosOperations) :
    scanTokens (numTokens "iradius".data v ++ rest) acc
      = scanTokens rest { acc with iradius := v <|> acc.iradius } := by
  cases v with
  | none => rfl
  | some n =>
    have h1 : scanTokens ("iradius".data :: intToChars n :: rest) acc
        = scanAux (rest.length + 1) rest (setIradius acc (intToChars n)) := rfl
    have h2 : setIradius acc (intToChars n) = { acc with iradius := some n } := by
      unfold setIradius
      rw [jsNum_intToChars]
    simp only [numTokens, List.cons_append, List.nil_append]
    rw [h1, scanAux_eq_scanTokens (rest.length + 1) rest
      (setIradius acc (intToChars n)) (Nat.le_succ rest.length), h2]
    rfl

theorem scan_chunk_rradius (v : Option Int) (rest : List (List Char))
    (acc : QCloudCosOperations) :
    scanTokens (numTokens "rradius".data v ++ rest) acc
      = scanTokens rest { acc with rradius := v <|> acc.rradius } := by
  cases v with
  | none => rfl
  | some n =>
    have h1 : scanTokens ("rradius".data :: intToChars n :: rest) acc
        = scanAux (rest.length + 1) rest (setRradius acc (intToChars n)) := rfl
    have h2 : setRradius acc (intToChars n) = { acc with rradius := some n } := by
      unfold setRradius
      rw [jsNum_intToChars]
    simp only [numTokens, List.cons_append, List.nil_append]
    rw [h1, scanAux_eq_scanTokens (rest.length + 1) rest
      (setRradius acc (intToChars n)) (Nat.le_succ rest.length), h2]
    rfl

theorem scan_chunk_auto (v : Option Bool) (rest : List (List Char))
    (acc : QCloudCosOperations) (hv : v ≠ some false) :
    scanTokens (autoTokens v ++ rest) acc
      = scanTokens rest { acc with autoOrient := v <|> acc.autoOrient } := by
  cases v with
  | none => rfl
  | some b =>
    cases b with
    | false => exact absurd rfl hv
    | true =>
      simp only [autoTokens, if_pos rfl, List.cons_append, List.nil_append]
      cases rest with
      | nil => rfl
      | cons t ts => rfl

theorem scan_chunk_rotate (v : Option Int) (rest : List (List Char))
    (acc : QCloudCosOperations) :
    scanTokens (numTokens "rotate".data v ++ rest) acc
      = scanTokens rest { acc with rotate := v <|> acc.rotate } := by
  cases v with
  | none => rfl
  | some n =>
    have h1 : scanTokens ("rotate".data :: intToChars n :: rest) acc
        = scanAux (rest.length + 1) rest (setRotate acc (intToChars n)) := rfl
    have h2 : setRotate acc (intToChars n) = { acc with rotate := some n } := by
      unfold setRotate
      rw [jsNum_intToChars]
    simp only [numTokens, List.cons_append, List.nil_append]
    rw [h1, scanAux_eq_scanTokens (rest.length + 1) rest
      (setRotate acc (intToChars n)) (Nat.le_succ rest.length), h2]
    rfl

theorem scan_chunk_flip (v : Option FlipDir) (rest : List (List Char))
    (acc : QCloudCosOperations) :
    scanTokens (flipTokens v ++ rest) acc
      = scanTokens rest { acc with flip := v <|> acc.flip } := by
  cases v with
  | none => rfl
  | some f =>
    cases f with
    | vertical =>
      have h1 : scanTokens ("flip".data :: "vertical".data :: rest) acc
          = scanAux (rest.length + 1) rest (setFlip acc "vertical".data) := rfl
      simp only [flipTokens, flipChars, List.cons_append, List.nil_append]
      rw [h1, scanAux_eq_scanTokens (rest.length + 1) rest
        (setFlip acc "vertical".data) (Nat.le_succ rest.length)]
      rfl
    | horizontal =>
      have h1 : scanTokens ("flip".data :: "horizontal".data :: rest) acc
          = scanAux (rest.length + 1) rest (setFlip acc "horizontal".data) := rfl
      simp only [flipTokens, flipChars, List.cons_append, List.nil_append]
      rw [h1, scanAux_eq_scanTokens (rest.length + 1) rest
        (setFlip acc "horizontal".data) (Nat.le_succ rest.length)]
      rfl

theorem scan_chunk_format (v : Option String) (rest : List (List Char))
    (acc : QCloudCosOperations) (hv : ∀ f, v = some f → f ≠ "") :
    scanTokens (formatTokens v ++ rest) acc
      = scanTokens rest { acc with format := v <|> acc.format } := by
  cases v with
  | none => rfl
  | some f =>
    have h1 : scanTokens ("format".data :: f.data :: rest) acc
        = scanAux (rest.length + 1) rest { acc with format := some (String.mk f.data) } := rfl
    have hmk : String.mk f.data = f := rfl
    simp only [formatTokens, if_neg (hv f rfl), List.cons_append, List.nil_append]
    rw [h1, scanAux_eq_scanTokens (rest.length + 1) rest
      { acc with format := some (String.mk f.data) } (Nat.le_succ rest.length), hmk]
    rfl

theorem scan_chunk_quality (v : Option QualityV) (rest : List (List Char))
    (acc : QCloudCosOperations)
    (hv : ∀ s, v = some (QualityV.str s) → jsNum s.data = none) :
    scanTokens (qualityTokens v ++ rest) acc
      = scanTokens rest { acc with quality := v <|> acc.quality } := by
  cases v with
  | none => rfl
  | some q =>
    cases q with
    | num n =>
      have h1 : scanTokens ("quality".data :: intToChars n :: rest) acc
          = scanAux (rest.length + 1) rest (setQuality acc (intToChars n)) := rfl
      have h2 : setQuality acc (intToChars n)
          = { acc with quality := some (QualityV.num n) } := by
        unfold setQuality
        rw [jsNum_intToChars]
      simp only [qualityTokens, qualityChars, List.cons_append, List.nil_append]
      rw [h1, scanAux_eq_scanTokens (rest.length + 1) rest
        (setQuality acc (intToChars n)) (Nat.le_succ rest.length), h2]
      rfl
    | str s =>
      have h1 : scanTokens ("quality".data :: s.data :: rest) acc
          = scanAux (rest.length + 1) rest (setQuality acc s.data) := rfl
      have h2 : setQuality acc s.data
          = { acc with quality := some (QualityV.str s) } := by
        unfold setQuality
        rw [hv s rfl]
      simp only [qualityTokens, qualityChars, List.cons_append, List.nil_append]
      rw [h1, scanAux_eq_scanTokens (rest.length + 1) rest
        (setQuality acc s.data) (Nat.le_succ rest.length), h2]
      rfl

theorem scan_chunk_rquality (v : Option Int) (rest : List (List Char))
    (acc : QCloudCosOperations) :
    scanTokens (numTokens "rquality".data v ++ rest) acc
      = scanTokens rest { acc with rquality := v <|> acc.rquality } := by
  cases v with
  | none => rfl
  | some n =>
    have h1 : scanTokens ("rquality".data :: intToChars n :: rest) acc
        = scanAux (rest.length + 1) rest (setRquality acc (intToChars n)) := rfl
    have h2 : setRquality acc (intToChars n) = { acc with rquality := some n } := by
      unfold setRquality
      rw [jsNum_intToChars]
    simp only [numTokens, List.cons_append, List.nil_append]
    rw [h1, scanAux_eq_scanTokens (rest.length + 1) rest
      (setRquality acc (intToChars n)) (Nat.le_succ rest.length), h2]
    rfl

theorem scan_chunk_lquality (v : Option Int) (rest : List (List Char))
    (acc : QCloudCosOperations) :
    scanTokens (numTokens "lquality".data v ++ rest) acc
      = scanTokens rest { acc with lquality := v <|> acc.lquality } := by
  cases v with
  | none => rfl
  | some n =>
    have h1 : scanTokens ("lquality".data :: intToChars n :: rest) acc
        = scanAux (rest.length + 1) rest (setLquality acc (intToChars n)) := rfl
    have h2 : setLquality acc (intToChars n) = { acc with lquality := some n } := by
      unfold setLquality
      rw [jsNum_intToChars]
    simp only [numTokens, List.cons_append, List.nil_append]
    rw [h1, scanAux_eq_scanTokens (rest.length + 1) rest
      (setLquality acc (intToChars n)) (Nat.le_succ rest.length), h2]
    rfl

theorem scan_chunk_ignore_final (v : Option Bool) (acc : QCloudCosOperations)
    (hv : v ≠ some false) :
    scanTokens (ignoreTokens v) acc = { acc with ignoreError := v <|> acc.ignoreError } := by
  cases v with
  | none => rfl
  | some b =>
    cases b with
    | false => exact absurd rfl hv
    | true => rfl

theorem dimChars_no_slash (v : Option Int) : '/' ∉ dimChars v := by
  cases v with
  | none => simp [dimChars]
  | some n => exact intToChars_no_slash n

theorem markerOf_no_slash (m : Option ThumbMode) : '/' ∉ markerOf m := by
  cases m with
  | none => simp [markerOf]
  | some mm => cases mm <;> simp [markerOf]

theorem resizeKw_no_slash (o : QCloudCosOperations) : '/' ∉ resizeKw o := by
  unfold resizeKw
  split <;> decide

theorem resizeArg_no_slash (o : QCloudCosOperations) : '/' ∉ resizeArgChars o := by
  unfold resizeArgChars
  rw [wxhChars_eq]
  intro hm
  rcases List.mem_append.mp hm with h | h
  · rcases List.mem_append.mp h with h2 | h2
    · exact dimChars_no_slash o.width h2
    · rcases List.mem_cons.mp h2 with h3 | h3
      · exact absurd h3 (by decide)
      · exact dimChars_no_slash o.height h3
  · exact markerOf_no_slash o.thumbnailMode h

theorem flipChars_no_slash (f : FlipDir) : '/' ∉ flipChars f := by
  cases f <;> decide

theorem splitMap_singleton (p : List Char) :
    (([p]).map (splitOnChar '/')).flatten = splitOnChar '/' p := by
  simp

theorem splitMap_resize (o : QCloudCosOperations) :
    ((resizePart o).map (splitOnChar '/')).flatten = resizeTokens o := by
  rw [resizePart_eq]
  unfold resizeTokens
  split
  · rw [splitMap_singleton,
      split_kw_arg (resizeKw o) (resizeArgChars o) (resizeKw_no_slash o)
        (resizeArg_no_slash o)]
  · rfl

theorem splitMap_num (kw : List Char) (hkw : '/' ∉ kw) (v : Option Int) :
    (((match v with
        | some n => [kw ++ '/' :: intToChars n]
        | none => ([] : List (List Char)))).map (splitOnChar '/')).flatten
      = numTokens kw v := by
  cases v with
  | none => rfl
  | some n =>
    rw [splitMap_singleton, split_kw_arg kw (intToChars n) hkw (intToChars_no_slash n)]
    rfl

theorem splitMap_auto (v : Option Bool) :
    (((if v = some true then ["auto-orient".data] else []) : List (List Char)).map
        (splitOnChar '/')).flatten = autoTokens v := by
  unfold autoTokens
  split
  · rw [splitMap_singleton, splitOnChar_of_not_mem (by decide)]
  · rfl

theorem splitMap_flip (v : Option FlipDir) :
    (((match v with
        | some f => ["flip".data ++ '/' :: flipChars f]
        | none => ([] : List (List Char)))).map (splitOnChar '/')).flatten
      = flipTokens v := by
  cases v with
  | none => rfl
  | some f =>
    rw [splitMap_singleton,
      split_kw_arg "flip".data (flipChars f) (by decide) (flipChars_no_slash f)]
    rfl

theorem splitMap_format (v : Option String) (hv : ∀ f, v = some f → '/' ∉ f.data) :
    (((match v with
        | some f => if f = "" then [] else ["format".data ++ '/' :: f.data]
        | none => ([] : List (List Char)))).map (splitOnChar '/')).flatten
      = formatTokens v := by
  cases v with
  | none => rfl
  | some f =>
    have hred : formatTokens (some f)
        = if f = "" then [] else ["format".data, f.data] := rfl
    have hlred : (match some f with
        | some f => if f = "" then [] else ["format".data ++ '/' :: f.data]
        | none => ([] : List (List Char)))
        = if f = "" then [] else ["format".data ++ '/' :: f.data] := rfl
    rw [hred, hlred]
    by_cases hf : f = ""
    · rw [if_pos hf, if_pos hf]
      rfl
    · rw [if_neg hf, if_neg hf, splitMap_singleton,
        split_kw_arg "format".data f.data (by decide) (hv f rfl)]

theorem splitMap_quality (v : Option QualityV)
    (hv : ∀ s, v = some (QualityV.str s) → '/' ∉ s.data) :
    (((match v with
        | some q => ["quality".data ++ '/' :: qualityChars q]
        | none => ([] : List (List Char)))).map (splitOnChar '/')).flatten
      = qualityTokens v := by
  cases v with
  | none => rfl
  | some q =>
    have hq : '/' ∉ qualityChars q := by
      cases q with
      | num n => exact intToChars_no_slash n
      | str s => exact hv s rfl
    rw [splitMap_singleton,
      split_kw_arg "quality".data (qualityChars q) (by decide) hq]
    rfl

theorem splitMap_ignore (v : Option Bool) :
    (((if v = some true then ["ignore-error".data ++ '/' :: ['1']] else [])
        : List (List Char)).map (splitOnChar '/')).flatten = ignoreTokens v := by
  unfold ignoreTokens
  split
  · rw [splitMap_singleton,
      split_kw_arg "ignore-error".data ['1'] (by decide) (by decide)]
  · rfl

theorem buildTokens (o : QCloudCosOperations)
    (hfmt : ∀ f, o.format = some f → '/' ∉ f.data)
    (hq : ∀ s, o.quality = some (QualityV.str s) → '/' ∉ s.data) :
    ((buildParts o).map (splitOnChar '/')).flatten = tokensOf o := by
  unfold buildParts tokensOf
  simp only [List.map_append, List.flatten_append]
  rw [splitMap_resize o, splitMap_num "iradius".data (by decide) o.iradius,
    splitMap_num "rradius".data (by decide) o.rradius, splitMap_auto o.autoOrient,
    splitMap_num "rotate".data (by decide) o.rotate, splitMap_flip o.flip,
    splitMap_format o.format hfmt, splitMap_quality o.quality hq,
    splitMap_num "rquality".data (by decide) o.rquality,
    splitMap_num "lquality".data (by decide) o.lquality,
    splitMap_ignore o.ignoreError]

theorem scanTokens_tokensOf (o : QCloudCosOperations)
    (hw : ∀ n, o.width = some n → 0 ≤ n) (hh : ∀ n, o.height = some n → 0 ≤ n)
    (hfit : o.thumbnailMode ≠ some ThumbMode.fit)
    (hdang : o.width = none → o.height = none → o.thumbnailMode = none)
    (hao : o.autoOrient ≠ some false) (hie : o.ignoreError ≠ some false)
    (hfmt : ∀ f, o.format = some f → f ≠ "")
    (hqn : ∀ s, o.quality = some (QualityV.str s) → jsNum s.data = none) :
    scanTokens (tokensOf o) {} = o := by
  unfold tokensOf
  simp only [List.append_assoc]
  rw [scan_chunk_resize o _ {} hw hh hfit hdang, scan_chunk_iradius,
    scan_chunk_rradius, scan_chunk_auto _ _ _ hao, scan_chunk_rotate,
    scan_chunk_flip, scan_chunk_format _ _ _ hfmt, scan_chunk_quality _ _ _ hqn,
    scan_chunk_rquality, scan_chunk_lquality, scan_chunk_ignore_final _ _ hie]
  apply opsExt <;> simp [opt_orElse_none]

/-! ## Round-trippability: the well-formedness region on which the serializer
and parser are mutually inverse. -/

/-- Characters on which `Number()` is guaranteed `NaN`: printable ASCII
that is not alphanumeric (digits, hex digits, radix prefixes, exponent
marks and the letters of `Infinity` are all alphanumeric) and none of
`'+'`, `'-'`, `'.'`. No JavaScript numeric literal, with its optional
whitespace padding, can contain such a character. -/
def forcesNaN (c : Char) : Bool :=
  decide (0x20 < c.val) && decide (c.val < 0x80)
    && !c.isAlphanum && decide (c ≠ '+') && decide (c ≠ '-') && decide (c ≠ '.')

theorem forcesNaN_spec {c : Char} (h : forcesNaN c = true) :
    c.isDigit = false ∧ c ≠ '+' ∧ c ≠ '-' := by
  unfold forcesNaN at h
  simp only [Bool.and_eq_true, Bool.not_eq_true', decide_eq_true_eq] at h
  obtain ⟨⟨⟨⟨⟨-, -⟩, h3⟩, h4⟩, h5⟩, -⟩ := h
  refine ⟨?_, h4, h5⟩
  cases hd : c.isDigit with
  | false => rfl
  | true =>
    unfold Char.isAlphanum at h3
    rw [hd, Bool.or_true] at h3
    exact h3

/-- On a string with a `forcesNaN` character the model agrees with
`Number()`: both are `NaN`. -/
theorem jsNum_of_forcesNaN {l : List Char} (h : l.any forcesNaN = true) :
    jsNum l = none := by
  obtain ⟨c, hc, hcf⟩ := List.any_eq_true.mp h
  obtain ⟨hcd, hcp, hcm⟩ := forcesNaN_spec hcf
  have hnotall : ∀ (m : List Char), c ∈ m → m.all Char.isDigit = false := by
    intro m hm
    cases hall : m.all Char.isDigit with
    | false => rfl
    | true =>
      have hdig := List.all_eq_true.mp hall c hm
      rw [hcd] at hdig
      exact hdig.symm
  have hne : l ≠ [] := by
    intro h0
    subst h0
    simp at hc
  unfold jsNum
  rw [if_neg hne, if_neg (fun hco => Bool.false_ne_true ((hnotall l hc) ▸ hco))]
  cases l with
  | nil => exact absurd rfl hne
  | cons c0 rest =>
    have hstep : jsNumSign (c0 :: rest)
        = (if c0 = '-' then
             if rest ≠ [] ∧ rest.all Char.isDigit then
               some (-(natOfChars rest : Int)) else none
           else if c0 = '+' then
             if rest ≠ [] ∧ rest.all Char.isDigit then
               some (natOfChars rest : Int) else none
           else none) := rfl
    rw [hstep]
    by_cases h0 : c0 = '-'
    · have hcrest : c ∈ rest := by
        rcases List.mem_cons.mp hc with hcc | hcc
        · exact absurd (hcc.trans h0) hcm
        · exact hcc
      rw [if_pos h0,
        if_neg (fun hco => Bool.false_ne_true ((hnotall rest hcrest) ▸ hco.2))]
    · rw [if_neg h0]
      by_cases h1 : c0 = '+'
      · have hcrest : c ∈ rest := by
          rcases List.mem_cons.mp hc with hcc | hcc
          · exact absurd (hcc.trans h1) hcp
          · exact hcc
        rw [if_pos h1,
          if_neg (fun hco => Bool.false_ne_true ((hnotall rest hcrest) ▸ hco.2))]
      · rw [if_neg h1]

def nonnegB : Option Int → Bool
  | some n => decide (0 ≤ n)
  | none => true

def fmtOkB : Option String → Bool
  | some f => decide (f ≠ "") && decide ('/' ∉ f.data)
  | none => true

def qualOkB : Option QualityV → Bool
  | some (QualityV.str s) => s.data.any forcesNaN && decide ('/' ∉ s.data)
  | _ => true

/-- Operation sets that survive the `buildImageMogr2`/`parseImageMogr2`
round trip: non-negative dimensions, no explicit default thumbnail mode,
no dangling mode without a dimension, boolean flags never explicitly
`false`, a non-empty slash-free format, and string qualities that are
slash-free and contain a character (`forcesNaN`) that keeps `Number()`
at `NaN`. -/
def roundtrippableB (o : QCloudCosOperations) : Bool :=
  nonnegB o.width && nonnegB o.height
    && decide (o.thumbnailMode ≠ some ThumbMode.fit)
    && (decide (o.thumbnailMode = none) || o.width.isSome || o.height.isSome)
    && decide (o.autoOrient ≠ some false)
    && decide (o.ignoreError ≠ some false)
    && fmtOkB o.format && qualOkB o.quality

theorem nonnegB_spec {v : Option Int} (h : nonnegB v = true) :
    ∀ n, v = some n → 0 ≤ n := by
  intro n hn
  subst hn
  exact of_decide_eq_true h

theorem fmtOkB_ne {v : Option String} (h : fmtOkB v = true) :
    ∀ f, v = some f → f ≠ "" := by
  intro f hf
  subst hf
  exact of_decide_eq_true (Bool.and_elim_left h)

theorem fmtOkB_slash {v : Option String} (h : fmtOkB v = true) :
    ∀ f, v = some f → '/' ∉ f.data := by
  intro f hf
  subst hf
  exact of_decide_eq_true (Bool.and_elim_right h)

theorem qualOkB_num {v : Option QualityV} (h : qualOkB v = true) :
    ∀ s, v = some (QualityV.str s) → jsNum s.data = none := by
  intro s hs
  subst hs
  exact jsNum_of_forcesNaN (Bool.and_elim_left h)

theorem qualOkB_slash {v : Option QualityV} (h : qualOkB v = true) :
    ∀ s, v = some (QualityV.str s) → '/' ∉ s.data := by
  intro s hs
  subst hs
  exact of_decide_eq_true (Bool.and_elim_right h)

theorem roundtrippable_unpack (o : QCloudCosOperations)
    (h : roundtrippableB o = true) :
    nonnegB o.width = true ∧ nonnegB o.height = true
      ∧ o.thumbnailMode ≠ some ThumbMode.fit
      ∧ (o.width = none → o.height = none → o.thumbnailMode = none)
      ∧ o.autoOrient ≠ some false ∧ o.ignoreError ≠ some false
      ∧ fmtOkB o.format = true ∧ qualOkB o.quality = true := by
  unfold roundtrippableB at h
  simp only [Bool.and_eq_true, Bool.or_eq_true, decide_eq_true_eq] at h
  obtain ⟨⟨⟨⟨⟨⟨⟨h1, h2⟩, h3⟩, h4⟩, h5⟩, h6⟩, h7⟩, h8⟩ := h
  refine ⟨h1, h2, h3, ?_, h5, h6, h7, h8⟩
  intro hwn hhn
  rcases h4 with (h | h) | h
  · exact h
  · rw [hwn] at h
    exact absurd h (by simp)
  · rw [hhn] at h
    exact absurd h (by simp)

theorem buildParts_nil_fields (o : QCloudCosOperations) (h : buildParts o = [])
    (hao : o.autoOrient ≠ some false) (hie : o.ignoreError ≠ some false)
    (hfmt : ∀ f, o.format = some f → f ≠ "")
    (hdang : o.width = none → o.height = none → o.thumbnailMode = none) :
    o = {} := by
  unfold buildParts at h
  simp only [List.append_eq_nil] at h
  obtain ⟨⟨⟨⟨⟨⟨⟨⟨⟨⟨h1, h2⟩, h3⟩, h4⟩, h5⟩, h6⟩, h7⟩, h8⟩, h9⟩, h10⟩, h11⟩ := h
  have hwh : ¬(o.width.isSome ∨ o.height.isSome) := by
    intro hp
    rw [resizePart_eq, if_pos hp] at h1
    exact absurd h1 (by simp)
  have hw0 : o.width = none := by
    cases hv : o.width with
    | none => rfl
    | some v => exact absurd (Or.inl (by rw [hv]; rfl)) hwh
  have hh0 : o.height = none := by
    cases hv : o.height with
    | none => rfl
    | some v => exact absurd (Or.inr (by rw [hv]; rfl)) hwh
  have hm0 : o.thumbnailMode = none := hdang hw0 hh0
  have hir0 : o.iradius = none := by
    cases hv : o.iradius with
    | none => rfl
    | some n =>
      rw [hv] at h2
      exact absurd h2 (by simp)
  have hrr0 : o.rradius = none := by
    cases hv : o.rradius with
    | none => rfl
    | some n =>
      rw [hv] at h3
      exact absurd h3 (by simp)
  have hau0 : o.autoOrient = none := by
    cases hv : o.autoOrient with
    | none => rfl
    | some b =>
      cases b with
      | false => exact absurd hv hao
      | true =>
        rw [hv, if_pos rfl] at h4
        exact absurd h4 (by simp)
  have hro0 : o.rotate = none := by
    cases hv : o.rotate with
    | none => rfl
    | some n =>
      rw [hv] at h5
      exact absurd h5 (by simp)
  have hfl0 : o.flip = none := by
    cases hv : o.flip with
    | none => rfl
    | some f =>
      rw [hv] at h6
      exact absurd h6 (by simp)
  have hfm0 : o.format = none := by
    cases hv : o.format with
    | none => rfl
    | some f =>
      rw [hv] at h7
      have h7b : (if f = "" then []
          else ["format".data ++ '/' :: f.data]) = ([] : List (List Char)) := h7
      rw [if_neg (hfmt f hv)] at h7b
      exact absurd h7b (by simp)
  have hq0 : o.quality = none := by
    cases hv : o.quality with
    | none => rfl
    | some q =>
      rw [hv] at h8
      exact absurd h8 (by simp)
  have hrq0 : o.rquality = none := by
    cases hv : o.rquality with
    | none => rfl
    | some n =>
      rw [hv] at h9
      exact absurd h9 (by simp)
  have hlq0 : o.lquality = none := by
    cases hv : o.lquality with
    | none => rfl
    | some n =>
      rw [hv] at h10
      exact absurd h10 (by simp)
  have hie0 : o.ignoreError = none := by
    cases hv : o.ignoreError with
    | none => rfl
    | some b =>
      cases b with
      | false => exact absurd hv hie
      | true =>
        rw [hv, if_pos rfl] at h11
        exact absurd h11 (by simp)
  exact opsExt hw0 hh0 hfm0 hq0 hm0 hau0 hro0 hfl0 hir0 hrr0 hrq0 hlq0 hie0

/-- C2 (amended): on well-formed operation sets — non-negative dimensions, no
explicit `fit` mode, no thumbnail mode without a dimension, flags never
explicitly `false`, non-empty slash-free formats, and string qualities
that are slash-free and contain a character no JavaScript numeric literal
can contain (the forced `'!'` form included) — the parser inverts the
serializer field for field. -/
theorem round_trip_on_wf (o : QCloudCosOperations) (h : roundtrippableB o = true) :
    parseImageMogr2 (buildImageMogr2 o) = o := by
  obtain ⟨hwB, hhB, hfit, hdang, hao, hie, hfmtB, hqB⟩ := roundtrippable_unpack o h
  have hw := nonnegB_spec hwB
  have hh := nonnegB_spec hhB
  have hfmtNe := fmtOkB_ne hfmtB
  have hfmtSl := fmtOkB_slash hfmtB
  have hqNum := qualOkB_num hqB
  have hqSl := qualOkB_slash hqB
  cases hps : buildParts o with
  | nil =>
    have hb : buildImageMogr2 o = "" := by
      unfold buildImageMogr2
      rw [hps]
    rw [hb]
    have hparse : parseImageMogr2 "" = {} := rfl
    rw [hparse, buildParts_nil_fields o hps hao hie hfmtNe hdang]
  | cons p ps =>
    have hb : buildImageMogr2 o
        = String.mk ("imageMogr2".data ++ '/' :: joinChar '/' (p :: ps)) := by
      unfold buildImageMogr2
      rw [hps]
      rfl
    rw [hb]
    have hparse : parseImageMogr2
          (String.mk ("imageMogr2".data ++ '/' :: joinChar '/' (p :: ps)))
        = parseChars ("imageMogr2".data ++ '/' :: joinChar '/' (p :: ps)) := rfl
    rw [hparse, parseChars_eqn, stripMogr_prefix_slash]
    have hpne : p ≠ [] :=
      buildParts_elem_ne_nil o p (by rw [hps]; exact List.mem_cons_self p ps)
    rw [if_neg (joinChar_ne_nil '/' p ps hpne)]
    rw [splitOnChar_joinChar_map '/' (p :: ps) (by simp)]
    rw [← hps, buildTokens o hfmtSl hqSl]
    exact scanTokens_tokensOf o hw hh hfit hdang hao hie hfmtNe hqNum

/-- C2 counterexample: the in-vocabulary operation set
`{width: 400, thumbnailMode: "fit"}` does not round-trip — the serializer
emits `thumbnail` for the default `fit` mode, and the parser leaves
`thumbnailMode` unset on a bare `WxH` argument, returning `{width: 400}`. -/
theorem roundtrip_counterexample :
    parseImageMogr2 (buildImageMogr2
        { width := some 400,
          thumbnailMode := some ThumbMode.fit })
      ≠ { width := some 400, thumbnailMode := some ThumbMode.fit } := by
  decide

/-- A fully-populated well-formed operation set, exercising every field of
the round trip, including the forced string quality `"90!"`. -/
def wfSample : QCloudCosOperations :=
  { width := some 400,
    height := some 300,
    format := some "webp",
    quality := some (QualityV.str "90!"),
    thumbnailMode := some ThumbMode.force,
    autoOrient := some true,
    rotate := some 90,
    flip := some FlipDir.vertical,
    iradius := some 10,
    rradius := some 20,
    rquality := some 80,
    lquality := some 70,
    ignoreError := some true }

theorem round_trip_on_wf_witness :
    roundtrippableB wfSample = true
      ∧ parseImageMogr2 (buildImageMogr2 wfSample) = wfSample :=
  ⟨by decide, round_trip_on_wf wfSample (by decide)⟩

/-- The literal reading of the claimed token discipline: one optional token
per slot in the fixed order, each present exactly when its field is
present, with truthiness tested only for the booleans — in particular a
format token whenever `format` is present, empty or not. -/
def claimTokens (o : QCloudCosOperations) : List (List Char) :=
  [specResizeToken o,
   o.iradius.map (fun n => "iradius".data ++ '/' :: intToChars n),
   o.rradius.map (fun n => "rradius".data ++ '/' :: intToChars n),
   (if o.autoOrient = some true then some "auto-orient".data else none),
   o.rotate.map (fun n => "rotate".data ++ '/' :: intToChars n),
   o.flip.map (fun f => "flip".data ++ '/' :: flipChars f),
   o.format.map (fun f => "format".data ++ '/' :: f.data),
   o.quality.map (fun v => "quality".data ++ '/' :: qualityChars v),
   o.rquality.map (fun n => "rquality".data ++ '/' :: intToChars n),
   o.lquality.map (fun n => "lquality".data ++ '/' :: intToChars n),
   (if o.ignoreError = some true then some ("ignore-error".data ++ '/' :: ['1'])
    else none)].filterMap id

/-- C7 counterexample: at `{format: ""}` the field is present, yet the
serializer's truthiness guard `if (ops.format)` pushes no token and
`buildImageMogr2` returns `""`, while a token present exactly when its
field is present would give `imageMogr2/format/`. -/
theorem serializer_shape_counterexample :
    buildImageMogr2 { format := some "" }
      ≠ (match claimTokens { format := some "" } with
         | [] => ""
         | ps => String.mk ("imageMogr2/".data ++ joinChar '/' ps)) := by
  decide
